import Mathlib

/-! ## exportcenter: shard planning, export run and task outcome

A shallow embedding of `export.go` and `task.go`.

* Go `int`, `int64` are `Int`; the `int32` shard index handed to a worker is an `Int`
  reduced by `toInt32`.
* `float64` conversion and division are modelled exactly (round to nearest, ties to even,
  53 bit significand) on integers, see `float64OfNat` and `float64Div`.
* The task table is a list of rows, the queue backend a list of named FIFO queues.
* Everything the engine cannot decide itself (JSON decoding, the spreadsheet library,
  faults of the store and of the queue backend, the clock) is a field of `Env`.
* The worker pool is run for capacity 1: the units of work run one after the other in
  submission order.  Each engine operation returns the calls it made on its collaborators
  in a `Calls` record.
-/

namespace Exportcenter

/-! ## Formatting -/

/-- The verb `%d` of `fmt.Sprintf` on an integer. -/
def fmtInt (i : Int) : String := toString i

/-! ## float64 arithmetic used by the shard planner -/

/-- Floor of the base 2 logarithm of `n`, for `0 < n < 2 ^ fuel`. -/
def log2Floor : Nat → Nat → Nat
  | 0, _ => 0
  | fuel + 1, n => if n < 2 then 0 else log2Floor fuel (n / 2) + 1

/-- The integer nearest to `n / d`, ties to the even one. -/
def divRoundEven (n d : Nat) : Nat :=
  let q := n / d
  let r := n % d
  if 2 * r < d then q else if d < 2 * r then q + 1 else if q % 2 = 0 then q else q + 1

/-- The value of `float64(n)` for `n < 2 ^ 64`: `n` rounded to 53 significant bits.
The result is again an integer. -/
def float64OfNat (n : Nat) : Nat :=
  let sh := log2Floor 64 n - 52
  divRoundEven n (2 ^ sh) * 2 ^ sh

/-- The float64 quotient `a / b` of two positive integer valued doubles, as a pair
`(mant, s)` that stands for `mant / 2 ^ s`; `mant` is the exact quotient scaled into
`[2 ^ 52, 2 ^ 53)` and rounded to the nearest integer, ties to even. -/
def float64Div (a b : Nat) : Nat × Int :=
  let d : Int := (log2Floor 64 a : Int) - (log2Floor 64 b : Int)
  let e : Int := if b * 2 ^ d.toNat ≤ a * 2 ^ (-d).toNat then d else d - 1
  let s : Int := 52 - e
  (divRoundEven (a * 2 ^ s.toNat) (b * 2 ^ (-s).toNat), s)

/-- The value of `math.Ceil` on the double `mant / 2 ^ s`. -/
def ceilScaled (mant : Nat) (s : Int) : Int :=
  if 0 ≤ s then ((mant + 2 ^ s.toNat - 1) / 2 ^ s.toNat : Nat) else (mant * 2 ^ (-s).toNat : Nat)

/-- The value of `math.Floor` on the double `mant / 2 ^ s`. -/
def floorScaled (mant : Nat) (s : Int) : Int :=
  if 0 ≤ s then (mant / 2 ^ s.toNat : Nat) else (mant * 2 ^ (-s).toNat : Nat)

/-- The constant `math.MinInt64`. -/
def minInt64 : Int := -(2 ^ 63)

/-- The conversion `int(v)` of an integer valued double.  Outside the int64 range the Go
result depends on the platform; this is the amd64 value. -/
def intOfFloat (v : Int) : Int := if minInt64 ≤ v ∧ v < 2 ^ 63 then v else minInt64

/-- The expression `int(math.Ceil(float64(count) / float64(sheetMaxRows)))` of
`CreateTask` (export.go:119) and `ExportToExcel` (export.go:232).  A zero divisor gives an
infinity or a NaN, which `int` turns into `math.MinInt64` on amd64. -/
def sheetCount (count sheetMaxRows : Int) : Int :=
  if sheetMaxRows = 0 then minInt64
  else if count = 0 then 0
  else
    let q := float64Div (float64OfNat count.natAbs) (float64OfNat sheetMaxRows.natAbs)
    if (0 < count ∧ 0 < sheetMaxRows) ∨ (count < 0 ∧ sheetMaxRows < 0) then
      intOfFloat (ceilScaled q.1 q.2)
    else intOfFloat (-(floorScaled q.1 q.2))

/-- The conversion `int32(i)`. -/
def toInt32 (i : Int) : Int := (i + 2 ^ 31) % 2 ^ 32 - 2 ^ 31

/-- The values `1, 2, .., n` taken by `i` in `for i := 1; i <= n; i++`. -/
def loopIndices (n : Int) : List Int := (List.range' 1 n.toNat).map Int.ofNat

/-! ## Task table (task.go) -/

/-- The row type `Task`. -/
structure Task where
  ID : Nat
  Name : String
  Description : String
  Status : Int
  ProgressRate : Int
  StartTime : Option Nat
  EndTime : Option Nat
  Source : String
  Destination : String
  ExportFormat : String
  ExportOptions : String
  QueueKey : String
  CountNum : Int
  WriteNum : Int
  ErrNum : Int
  ErrLogUrl : String
  DownloadUrl : String
  deriving DecidableEq, Repr

/-- The struct `ExportOptions`. -/
structure ExportOptions where
  FileName : String
  Header : List String
  deriving DecidableEq, Repr

/-- The type `TaskStatus`. -/
abbrev TaskStatus := Int

def TaskStatusWait : TaskStatus := 1

def TaskStatusConsult : TaskStatus := 2

def TaskStatusCompleted : TaskStatus := 3

def TaskStatusFail : TaskStatus := 4

def TaskStatusAbandon : TaskStatus := 5

/-- The method `TaskStatus.ParseInt`. -/
def TaskStatus.ParseInt (s : TaskStatus) : Int := s

/-- The operations of the task store, to name the one that a fault hits. -/
inductive DbOp where
  | autoMigrate
  | create
  | find
  | updateStatus
  | complete
  | fail
  | downloadUrl
  | errLogUrl
  deriving DecidableEq, Repr

/-- A decoded JSON document as `json.Unmarshal` stores it in an `interface{}`: `null` is
the nil interface, an array is a `[]interface{}` (its elements kept as text), every other
document is a value of a kind other than slice. -/
inductive JsonValue where
  | null
  | bool (b : Bool)
  | number (text : String)
  | string (s : String)
  | array (elems : List String)
  | object (fields : List (String × String))
  deriving DecidableEq, Repr

/-- The collaborators of the engine: what they answer is not decided by the engine. -/
structure Env where
  /-- The value of `time.Now()`. -/
  now : Nat
  /-- The error of a store operation, if it fails. -/
  dbError : DbOp → Option String
  /-- The call `json.Marshal(options)`. -/
  marshalOptions : ExportOptions → Except String String
  /-- The call `json.Unmarshal` into an `ExportOptions`. -/
  unmarshalOptions : String → Except String ExportOptions
  /-- The call `json.Unmarshal` into an `interface{}`. -/
  unmarshal : String → Except String JsonValue
  /-- The error of `Queue.CreateQueue` on a key, if it fails. -/
  createQueueError : String → Option String
  /-- The error of `f.NewSheet` for a sheet index, if it fails. -/
  newSheetError : Int → Option String
  /-- The error of `f.NewStreamWriter` for a sheet index, if it fails. -/
  newStreamWriterError : Int → Option String
  /-- The error of writing the header row of a sheet, if it fails. -/
  setHeaderError : Int → Option String
  /-- The call `excelize.CoordinatesToCellName(1, row)`. -/
  cellName : Int → Except String String
  /-- The error of `SetRow` on the writer of a sheet, for a cell and its values. -/
  setRowError : Int → String → List String → Option String
  /-- The error of `f.SaveAs`, if it fails. -/
  saveAsError : String → Option String
  /-- The error of `os.Remove`, if it fails. -/
  removeError : String → Option String

/-- First id above every id of the table. -/
def nextID (tasks : List Task) : Nat := (tasks.map (fun t => t.ID)).foldr max 0 + 1

/-- The method `Task.Create`: the row is appended under a fresh id. -/
def Task.Create (env : Env) (tasks : List Task) (m : Task) : Except String (List Task × Task) :=
  match env.dbError DbOp.create with
  | some e => .error e
  | none =>
    let row := { m with ID := nextID tasks }
    .ok (tasks ++ [row], row)

/-- The method `Task.FindByID`: the first row with that id. -/
def Task.FindByID (env : Env) (tasks : List Task) (id : Int) : Except String Task :=
  match env.dbError DbOp.find with
  | some e => .error e
  | none =>
    match tasks.find? (fun t => (t.ID : Int) = id) with
    | some info => .ok info
    | none => .error "record not found"

/-- The clause `Where("id = ?", id).UpdateColumns(..)`: every row with that id is changed. -/
def updateColumns (tasks : List Task) (id : Int) (f : Task → Task) : List Task :=
  tasks.map (fun t => if (t.ID : Int) = id then f t else t)

/-- The method `Task.UpdateStatusByID`. -/
def Task.UpdateStatusByID (env : Env) (tasks : List Task) (id : Int) (status : TaskStatus) :
    Except String (List Task) :=
  match env.dbError DbOp.updateStatus with
  | some e => .error e
  | none =>
    if status = TaskStatusConsult then
      .ok (updateColumns tasks id (fun t => { t with Status := status, StartTime := some env.now }))
    else
      .ok (updateColumns tasks id (fun t => { t with Status := status }))

/-- The method `Task.CompleteTaskByID`. -/
def Task.CompleteTaskByID (env : Env) (tasks : List Task) (id : Int) (writeNum : Int) :
    Except String (List Task) :=
  match env.dbError DbOp.complete with
  | some e => .error e
  | none =>
    .ok (updateColumns tasks id (fun t =>
      { t with Status := TaskStatusCompleted, ProgressRate := 100, EndTime := some env.now,
               WriteNum := writeNum }))

/-- The method `Task.FailTaskByID`. -/
def Task.FailTaskByID (env : Env) (tasks : List Task) (id : Int) (errNum writeNum : Int) :
    Except String (List Task) :=
  match env.dbError DbOp.fail with
  | some e => .error e
  | none =>
    .ok (updateColumns tasks id (fun t =>
      { t with Status := TaskStatusFail, ProgressRate := 100, EndTime := some env.now,
               ErrNum := errNum, WriteNum := writeNum }))

/-- The method `Task.UpdateDownloadUrlByID`. -/
def Task.UpdateDownloadUrlByID (env : Env) (tasks : List Task) (id : Int) (url : String) :
    Except String (List Task) :=
  match env.dbError DbOp.downloadUrl with
  | some e => .error e
  | none => .ok (updateColumns tasks id (fun t => { t with DownloadUrl := url }))

/-- The method `Task.UpdateErrLogUrlByID`. -/
def Task.UpdateErrLogUrlByID (env : Env) (tasks : List Task) (id : Int) (url : String) :
    Except String (List Task) :=
  match env.dbError DbOp.errLogUrl with
  | some e => .error e
  | none => .ok (updateColumns tasks id (fun t => { t with ErrLogUrl := url }))

/-! ## Queue backend -/

/-- The state of the queue backend behind the `Queue` interface: the named queues with
their pending payloads, oldest first. -/
abbrev Queues := List (String × List String)

/-- The payloads waiting under a key; an unknown key has none. -/
def Queue.Pending (qs : Queues) (key : String) : List String := (qs.lookup key).getD []

/-- The operation `CreateQueue`: provisions the queue if it is not there yet. -/
def Queue.CreateQueue (qs : Queues) (key : String) : Queues :=
  if (qs.lookup key).isSome then qs else qs ++ [(key, [])]

/-- The operation `Push`: the payload is added behind the pending ones. -/
def Queue.Push (qs : Queues) (key : String) (data : String) : Queues :=
  if (qs.lookup key).isSome then
    qs.map (fun p => if p.1 = key then (p.1, p.2 ++ [data]) else p)
  else qs ++ [(key, [data])]

/-- The pending payloads of a key after a consumer has taken some of them. -/
def Queue.SetPending (qs : Queues) (key : String) (remaining : List String) : Queues :=
  qs.map (fun p => if p.1 = key then (p.1, remaining) else p)

/-- The operation `Destroy`: the key is no longer addressable. -/
def Queue.Destroy (qs : Queues) (key : String) : Queues := qs.filter (fun p => p.1 ≠ key)

/-- The calls an engine operation made on its collaborators, each list in call order. -/
structure Calls where
  /-- Keys passed to `Queue.CreateQueue`. -/
  createQueue : List String := []
  /-- Keys passed to the setup callback `before`. -/
  before : List String := []
  /-- Sheets whose header row was written, with the row index and the labels. -/
  setHeader : List (Int × Int × List String) := []
  /-- Key each unit of work pops from, one entry per unit. -/
  popKeys : List String := []
  /-- Data rows passed to `SetRow` of a writer, accepted or refused: sheet index, row index
  of the target cell, values. -/
  setRowCall : List (Int × Int × List String) := []
  /-- Data rows accepted by a writer: sheet index, row index, values. -/
  setRow : List (Int × Int × List String) := []
  /-- Sheets whose writer was flushed. -/
  flush : List Int := []
  /-- Keys passed to `Queue.Destroy`. -/
  destroy : List String := []
  /-- Paths passed to `f.SaveAs`. -/
  saveAs : List String := []
  deriving DecidableEq, Repr

/-! ## Engine (export.go) -/

/-- The struct `ExportCenter` without its handles `Db` and `Queue`, whose state is passed
to the operations. -/
structure ExportCenter where
  queuePrefix : String
  sheetMaxRows : Int
  poolMax : Int
  goroutineMax : Int
  isUploadCloud : Bool
  upload : String → Except String String
  logRootPath : String
  outTime : Int

/-- The struct `Options` without its handles `Db` and `Queue`. -/
structure Options where
  QueuePrefix : String
  SheetMaxRows : Int
  PoolMax : Int
  GoroutineMax : Int
  IsUploadCloud : Bool
  Upload : String → Except String String
  LogRootPath : String
  OutTime : Int

/-- The function `NewClient` (export.go:58-91).  The struct literal it returns has no entry
for `queuePrefix`, which therefore has the zero value of its type. -/
def NewClient (env : Env) (options : Options) : Except String ExportCenter :=
  if options.SheetMaxRows = 0 then .error "SheetMaxRows数据表最大行数必须配置大于0"
  else
    let poolMax := if options.PoolMax ≤ 0 then 1 else options.PoolMax
    let goroutineMax := if options.GoroutineMax ≤ 0 then 1 else options.GoroutineMax
    let outTime := if options.OutTime = 0 then 5 * 1000000000 else options.OutTime
    match env.dbError DbOp.autoMigrate with
    | some err => .error err
    | none =>
      .ok { queuePrefix := ""
            poolMax := poolMax
            sheetMaxRows := options.SheetMaxRows
            goroutineMax := goroutineMax
            isUploadCloud := options.IsUploadCloud
            upload := options.Upload
            logRootPath := options.LogRootPath
            outTime := outTime }

/-- What the queue loop of `CreateTask` leaves behind. -/
structure CreateLoop where
  queues : Queues
  keys : List String
  called : List String
  err : Option String

/-- The loop `for i := 1; i <= sheetCount; i++` of `CreateTask` (export.go:123-137) over
the values of `i` still to come. -/
def createQueues (ec : ExportCenter) (env : Env) (taskQueueKey : String) :
    List Int → Queues → CreateLoop
  | [], qs => ⟨qs, [], [], none⟩
  | i :: rest, qs =>
    let queueKey :=
      if ec.queuePrefix ≠ "" then
        ec.queuePrefix ++ "_" ++ taskQueueKey ++ "_sheet" ++ fmtInt i
      else taskQueueKey ++ "_sheet" ++ fmtInt i
    match env.createQueueError queueKey with
    | some err => ⟨qs, [], [queueKey], some err⟩
    | none =>
      let r := createQueues ec env taskQueueKey rest (Queue.CreateQueue qs queueKey)
      ⟨r.queues, queueKey :: r.keys, queueKey :: r.called, r.err⟩

/-- The results `(uint, []string, error)` of `CreateTask`, with the state it leaves. -/
structure CreateTaskResult where
  id : Nat
  keys : List String
  err : Option String
  tasks : List Task
  queues : Queues
  calls : Calls

/-- The method `ExportCenter.CreateTask` (export.go:94-140). -/
def CreateTask (ec : ExportCenter) (env : Env) (tasks : List Task) (queues : Queues)
    (key name description source destination format : String) (count : Int)
    (options : ExportOptions) : CreateTaskResult :=
  match env.marshalOptions options with
  | .error err => ⟨0, [], some err, tasks, queues, {}⟩
  | .ok marshal =>
    let task : Task :=
      { ID := 0
        Name := name
        Description := description
        Status := TaskStatus.ParseInt TaskStatusWait
        ProgressRate := 0
        StartTime := none
        EndTime := none
        Source := source
        Destination := destination
        ExportFormat := format
        ExportOptions := marshal
        QueueKey := key
        CountNum := count
        WriteNum := 0
        ErrNum := 0
        ErrLogUrl := ""
        DownloadUrl := "" }
    match Task.Create env tasks task with
    | .error err => ⟨0, [], some err, tasks, queues, {}⟩
    | .ok (tasks1, task1) =>
      let sheetCount := sheetCount count ec.sheetMaxRows
      let r := createQueues ec env task1.QueueKey (loopIndices sheetCount) queues
      match r.err with
      | some err => ⟨0, [], some err, tasks1, r.queues, { createQueue := r.called }⟩
      | none => ⟨task1.ID, r.keys, none, tasks1, r.queues, { createQueue := r.called }⟩

/-- The method `ExportCenter.PushData`. -/
def PushData (queues : Queues) (key : String) (data : String) : Queues :=
  Queue.Push queues key data

/-- The method `ExportCenter.GetTask`. -/
def GetTask (env : Env) (tasks : List Task) (id : Int) : Except String Task :=
  Task.FindByID env tasks id

/-- The method `ExportCenter.CompleteTask`. -/
def CompleteTask (env : Env) (tasks : List Task) (id writeNum : Int) : Except String (List Task) :=
  Task.CompleteTaskByID env tasks id writeNum

/-- The method `ExportCenter.ConsultTask`. -/
def ConsultTask (env : Env) (tasks : List Task) (id : Int) : Except String (List Task) :=
  Task.UpdateStatusByID env tasks id TaskStatusConsult

/-- The method `ExportCenter.FailTask`. -/
def FailTask (env : Env) (tasks : List Task) (id errNum writeNum : Int) :
    Except String (List Task) :=
  Task.FailTaskByID env tasks id errNum writeNum

/-- The method `ExportCenter.UpdateTaskDownloadUrl`. -/
def UpdateTaskDownloadUrl (env : Env) (tasks : List Task) (id : Int) (url : String) :
    Except String (List Task) :=
  Task.UpdateDownloadUrlByID env tasks id url

/-- The method `ExportCenter.UpdateTaskErrLogUrl`. -/
def UpdateTaskErrLogUrl (env : Env) (tasks : List Task) (id : Int) (url : String) :
    Except String (List Task) :=
  Task.UpdateErrLogUrlByID env tasks id url

/-! ## Export run (export.go:191-445) -/

/-- How a call of `ExportToExcel` ends. -/
inductive Exit where
  /-- The call returns this error value (`none` is `nil`). -/
  | returned (err : Option String)
  /-- The calling goroutine panics. -/
  | panic (msg : String)
  /-- A unit of work panics before its `wg.Done()`, so `wg.Wait()` never returns: the call
  hangs and its deferred calls do not run.  The state is the one at the panic. -/
  | workerPanic (msg : String)
  deriving DecidableEq, Repr

/-- What the setup loop leaves behind: the calls made and, if the loop ends the run, how. -/
structure SetupResult where
  before : List String
  setHeader : List (Int × Int × List String)
  exit : Option Exit

/-- The loop `for i := 1; i <= sheetCount; i++` of `ExportToExcel` (export.go:253-297) over
the values of `i` still to come.  `before` is the setup callback, `none` for a nil func. -/
def setupShards (ec : ExportCenter) (env : Env) (task : Task)
    (before : Option (String → Option String)) (headers : List String) :
    List Int → SetupResult
  | [] => ⟨[], [], none⟩
  | i :: rest =>
    let queueKey :=
      if ec.queuePrefix ≠ "" then
        ec.queuePrefix ++ "_" ++ task.QueueKey ++ "_sheet" ++ fmtInt i
      else task.QueueKey ++ "_sheet" ++ fmtInt i
    match before with
    | none => ⟨[], [], some (Exit.panic "runtime error: invalid memory address or nil pointer dereference")⟩
    | some callback =>
      match callback queueKey with
      | some err => ⟨[queueKey], [], some (Exit.returned (some err))⟩
      | none =>
        match (if i > 1 then env.newSheetError i else none) with
        | some err => ⟨[queueKey], [], some (Exit.returned (some err))⟩
        | none =>
          match env.newStreamWriterError i with
          | some err => ⟨[queueKey], [], some (Exit.returned (some err))⟩
          | none =>
            match env.setHeaderError i with
            | some err => ⟨[queueKey], [], some (Exit.returned (some err))⟩
            | none =>
              let r := setupShards ec env task before headers rest
              ⟨queueKey :: r.before, (i, 1, headers) :: r.setHeader, r.exit⟩

/-- The variables shared by the units of work: the counters `count`, `rowCount`,
`errRowCount`, the captured result variable `err`, and the rows passed to `SetRow`, the
rows a writer accepted and the writers flushed so far. -/
structure RunState where
  count : Int
  rowCount : Int
  errRowCount : Int
  err : Option String
  setRowCall : List (Int × Int × List String)
  setRow : List (Int × Int × List String)
  flush : List Int
  deriving DecidableEq, Repr

/-- What a unit of work does after one pass of its loop. -/
inductive Flow where
  /-- The loop goes on with the next pop (`continue`, or the end of the body). -/
  | next
  /-- The loop is left (`break`) and the unit of work ends. -/
  | done
  /-- The pass panics. -/
  | crash
  deriving DecidableEq, Repr

/-- The method `interfaceToSlice` (export.go:447-457).  On the nil interface
`reflect.TypeOf(obj)` is nil and the call of `Kind` on it panics: `none`. -/
def interfaceToSlice (obj : JsonValue) : Option (List String) :=
  match obj with
  | JsonValue.null => none
  | JsonValue.array elems => some elems
  | _ => some []

/-- One pass of the loop `for { .. }` of a unit of work (export.go:316-374).  `data` is what
the `select` received: `some d` for a payload from `PopData`, `none` for the timeout. -/
def workerStep (ec : ExportCenter) (env : Env) (task : Task) (currentSheetIndex : Int)
    (data : Option String) (st : RunState) : RunState × Flow :=
  let currentRowNum := st.rowCount + 1
  let currentCount := st.count
  match data with
  | none => (st, Flow.done)
  | some data =>
    if data = "" then ({ st with errRowCount := st.errRowCount + 1 }, Flow.next)
    else
      match env.unmarshal data with
      | .error err =>
        ({ st with err := some err, errRowCount := st.errRowCount + 1 }, Flow.next)
      | .ok values =>
        let st0 := { st with err := none }
        match env.cellName currentRowNum with
        | .error _ => ({ st0 with errRowCount := st0.errRowCount + 1 }, Flow.next)
        | .ok cell =>
          match interfaceToSlice values with
          | none => (st0, Flow.crash)
          | some slice =>
            let st0 :=
              { st0 with
                setRowCall := st0.setRowCall ++ [(currentSheetIndex, currentRowNum, slice)] }
            match env.setRowError currentSheetIndex cell slice with
            | some _ => ({ st0 with errRowCount := st0.errRowCount + 1 }, Flow.next)
            | none =>
              let st1 :=
                { st0 with
                  count := st0.count + 1
                  rowCount := st0.rowCount + 1
                  setRow := st0.setRow ++ [(currentSheetIndex, currentRowNum, slice)] }
              if currentRowNum > ec.sheetMaxRows ∨ currentCount ≥ task.CountNum then
                ({ st1 with rowCount := 0, flush := st1.flush ++ [currentSheetIndex] },
                  Flow.done)
              else (st1, Flow.next)

/-- The loop of a unit of work on the payloads pending under its key: a pop delivers the
oldest pending payload, a pop on an empty queue times out.  Returns the state, the
payloads left on the queue and whether the unit of work panicked. -/
def workerLoop (ec : ExportCenter) (env : Env) (task : Task) (currentSheetIndex : Int) :
    List String → RunState → RunState × List String × Bool
  | [], st => ((workerStep ec env task currentSheetIndex none st).1, [], false)
  | data :: pending, st =>
    match workerStep ec env task currentSheetIndex (some data) st with
    | (st1, Flow.next) => workerLoop ec env task currentSheetIndex pending st1
    | (st1, Flow.done) => (st1, pending, false)
    | (st1, Flow.crash) => (st1, pending, true)

/-- The values `0, 1, .., n - 1` taken by `i` in `for i := 0; i < n; i++`. -/
def loopIndices0 (n : Int) : List Int := (List.range n.toNat).map Int.ofNat

/-- What the worker pool leaves behind. -/
structure WorkersResult where
  queues : Queues
  state : RunState
  popKeys : List String
  crashed : Bool

/-- The loop `for i := 0; i < sheetCount; i++` submitting `int32(i + 1)` to the pool
(export.go:380-384) with the pool function (export.go:306-377), for a pool of capacity 1:
each unit of work runs to its end before the next one starts.  When a unit of work panics
the result is the state at the panic; the units after it are not followed. -/
def runWorkers (ec : ExportCenter) (env : Env) (task : Task) :
    List Int → Queues → RunState → WorkersResult
  | [], qs, st => ⟨qs, st, [], false⟩
  | i :: rest, qs, st =>
    let currentSheetIndex := toInt32 (i + 1)
    let queueKey :=
      if ec.queuePrefix ≠ "" then
        ec.queuePrefix ++ "_" ++ task.QueueKey ++ "_sheet" ++ fmtInt currentSheetIndex
      else task.QueueKey ++ "_sheet" ++ fmtInt currentSheetIndex
    match workerLoop ec env task currentSheetIndex (Queue.Pending qs queueKey) st with
    | (st1, remaining, true) => ⟨Queue.SetPending qs queueKey remaining, st1, [queueKey], true⟩
    | (st1, remaining, false) =>
      let r := runWorkers ec env task rest (Queue.SetPending qs queueKey remaining) st1
      ⟨r.queues, r.state, queueKey :: r.popKeys, r.crashed⟩

/-- The loop `for i := 1; i <= sheetCount; i++` that destroys the queues
(export.go:400-408): the queues left and the keys passed to `Destroy`. -/
def destroyQueues (ec : ExportCenter) (task : Task) : List Int → Queues → Queues × List String
  | [], qs => (qs, [])
  | i :: rest, qs =>
    let queueKey :=
      if ec.queuePrefix ≠ "" then
        ec.queuePrefix ++ "_" ++ task.QueueKey ++ "_sheet" ++ fmtInt i
      else task.QueueKey ++ "_sheet" ++ fmtInt i
    let r := destroyQueues ec task rest (Queue.Destroy qs queueKey)
    (r.1, queueKey :: r.2)

/-- The result of `ExportToExcel` with the state it leaves: the task table, the queues,
the calls made and the final values of the counters. -/
structure ExportResult where
  exit : Exit
  tasks : List Task
  queues : Queues
  calls : Calls
  count : Int
  rowCount : Int
  errRowCount : Int

/-- The decision on the outcome (export.go:386-396): the task table afterwards and the
value of the result variable `err`. -/
def settleTask (env : Env) (tasks : List Task) (id : Int) (task : Task) (st : RunState) :
    List Task × Option String × Bool :=
  if st.count ≥ task.CountNum then
    match CompleteTask env tasks id st.count with
    | .error err => (tasks, some err, true)
    | .ok tasks1 => (tasks1, none, false)
  else
    match FailTask env tasks id st.errRowCount st.count with
    | .error _ => (tasks, st.err, false)
    | .ok tasks1 => (tasks1, st.err, false)

/-- The end of `ExportToExcel` after the queues are destroyed (export.go:410-444): the task
table afterwards and the value returned.  `err` is the result variable at that point. -/
def saveAndPublish (ec : ExportCenter) (env : Env) (tasks : List Task) (id : Int)
    (filePath : String) (err : Option String) : List Task × Option String :=
  match env.saveAsError filePath with
  | some e => (tasks, some e)
  | none =>
    if ec.isUploadCloud then
      match ec.upload filePath with
      | .error e => (tasks, some e)
      | .ok url =>
        match UpdateTaskDownloadUrl env tasks id url with
        | .error e => (tasks, some e)
        | .ok tasks1 =>
          match env.removeError filePath with
          | some e => (tasks1, some e)
          | none => (tasks1, err)
    else
      match UpdateTaskDownloadUrl env tasks id filePath with
      | .error e => (tasks, some e)
      | .ok tasks1 => (tasks1, none)

/-- The counters before the first unit of work (export.go:300-302): `count = 0`,
`rowCount = 1`, `errRowCount = 0`; the result variable `err` is nil at that point. -/
def initRunState : RunState :=
  { count := 0, rowCount := 1, errRowCount := 0, err := none, setRowCall := [], setRow := [],
    flush := [] }

/-- The body of `ExportToExcel` (export.go:218-444), before its deferred calls. -/
def exportBody (ec : ExportCenter) (env : Env) (tasks : List Task) (queues : Queues)
    (id : Int) (filePath : String) (before : Option (String → Option String)) :
    ExportResult :=
  match GetTask env tasks id with
  | .error err => ⟨Exit.returned (some err), tasks, queues, {}, 0, 1, 0⟩
  | .ok task =>
    match ConsultTask env tasks id with
    | .error err => ⟨Exit.returned (some err), tasks, queues, {}, 0, 1, 0⟩
    | .ok tasks1 =>
      let sheetCount := sheetCount task.CountNum ec.sheetMaxRows
      match env.unmarshalOptions task.ExportOptions with
      | .error err => ⟨Exit.returned (some err), tasks1, queues, {}, 0, 1, 0⟩
      | .ok options =>
        let setup := setupShards ec env task before options.Header (loopIndices sheetCount)
        match setup.exit with
        | some exit =>
          ⟨exit, tasks1, queues, { before := setup.before, setHeader := setup.setHeader },
            0, 1, 0⟩
        | none =>
          let w := runWorkers ec env task (loopIndices0 sheetCount) queues initRunState
          if w.crashed then
            ⟨Exit.workerPanic "runtime error: invalid memory address or nil pointer dereference", tasks1,
              w.queues,
              { before := setup.before, setHeader := setup.setHeader, popKeys := w.popKeys,
                setRowCall := w.state.setRowCall, setRow := w.state.setRow,
                flush := w.state.flush },
              w.state.count, w.state.rowCount, w.state.errRowCount⟩
          else
            match settleTask env tasks1 id task w.state with
            | (tasks2, err, true) =>
              ⟨Exit.returned err, tasks2, w.queues,
                { before := setup.before, setHeader := setup.setHeader,
                  popKeys := w.popKeys, setRowCall := w.state.setRowCall,
                  setRow := w.state.setRow, flush := w.state.flush },
                w.state.count, w.state.rowCount, w.state.errRowCount⟩
            | (tasks2, err, false) =>
              let d := destroyQueues ec task (loopIndices sheetCount) w.queues
              let fin := saveAndPublish ec env tasks2 id filePath err
              ⟨Exit.returned fin.2, fin.1, d.1,
                { before := setup.before, setHeader := setup.setHeader,
                  popKeys := w.popKeys, setRowCall := w.state.setRowCall,
                  setRow := w.state.setRow, flush := w.state.flush,
                  destroy := d.2, saveAs := [filePath] },
                w.state.count, w.state.rowCount, w.state.errRowCount⟩

/-- The method `ExportCenter.ExportToExcel` (export.go:191-445): the body, then the
deferred call that records the log path, whose error is dropped.  The deferred call runs
when the body returns or panics; it does not run when the body hangs in `wg.Wait()`. -/
def ExportToExcel (ec : ExportCenter) (env : Env) (tasks : List Task) (queues : Queues)
    (id : Int) (filePath : String) (before : Option (String → Option String)) :
    ExportResult :=
  let logPath := "/export_log/export-system(task_id-" ++ fmtInt id ++ ").log"
  let r := exportBody ec env tasks queues id filePath before
  match r.exit with
  | Exit.workerPanic _ => r
  | _ =>
    match UpdateTaskErrLogUrl env r.tasks id logPath with
    | .error _ => r
    | .ok tasks1 => { r with tasks := tasks1 }

/-! ## Reference definitions and sample data -/

/-- The shard key format in the words of the specification:
`{queuePrefix_}{taskQueueKey}_sheet{n}`, the prefix segment left out when no prefix is
configured. -/
def specShardKey (pfx taskQueueKey : String) (n : Int) : String :=
  if pfx ≠ "" then pfx ++ "_" ++ taskQueueKey ++ "_sheet" ++ fmtInt n
  else taskQueueKey ++ "_sheet" ++ fmtInt n

/-- Value of a run of decimal digit characters. -/
def digitsValue (cs : List Char) : Nat := cs.foldl (fun acc c => acc * 10 + (c.toNat - 48)) 0

/-- The row payload pushed by the tests (main_test.go:71). -/
def testPayload : String := "[\"get1\",\"get1\",\"get1\"]"

/-- The decoder `json.Unmarshal` on the payloads used in the examples below; any other
text is taken as malformed. -/
def sampleUnmarshal (data : String) : Except String JsonValue :=
  if data = testPayload then .ok (JsonValue.array ["\"get1\"", "\"get1\"", "\"get1\""])
  else if data = "5" then .ok (JsonValue.number "5")
  else if data = "null" then .ok JsonValue.null
  else if data = "\"x\"" then .ok (JsonValue.string "x")
  else .error "invalid character"

/-- The cell name of column 1 for a row, which the spreadsheet library refuses below row 1. -/
def sampleCellName (row : Int) : Except String String :=
  if row < 1 then .error "invalid cell reference" else .ok ("A" ++ fmtInt row)

/-- The answer of `SetRow` of the stream writer of a sheet to a data row.  The writer
refuses a row that is not below the rows it has written.  The header of the sheet was
written at row 1 before any data row, and the data rows that one unit of work passes to its
writer have increasing row indices, so the refused rows are those addressed to row 1. -/
def sampleSetRowError (cell : String) : Option String :=
  if cell = "A1" then some "row 1 has already been written" else none

/-- Collaborators without faults: every store and queue call succeeds, the writer of a
sheet accepts every data row below its header row, and the options stored with a task
decode to the header of the tests. -/
def sampleEnv : Env :=
  { now := 0
    dbError := fun _ => none
    marshalOptions := fun _ => .ok "options"
    unmarshalOptions := fun _ => .ok ⟨"", ["header1", "header2", "header3"]⟩
    unmarshal := sampleUnmarshal
    createQueueError := fun _ => none
    newSheetError := fun _ => none
    newStreamWriterError := fun _ => none
    setHeaderError := fun _ => none
    cellName := sampleCellName
    setRowError := fun _ cell _ => sampleSetRowError cell
    saveAsError := fun _ => none
    removeError := fun _ => none }

/-- The options of `TestRabbitMqTaskExport` (main_test.go:38-47). -/
def testOptions : Options :=
  { QueuePrefix := "ec_"
    SheetMaxRows := 500000
    PoolMax := 2
    GoroutineMax := 30
    IsUploadCloud := false
    Upload := fun filePath => .ok filePath
    LogRootPath := "log"
    OutTime := 5000000000 }

/-- The header of the tests (main_test.go:60-66). -/
def testExportOptions : ExportOptions := ⟨"", ["header1", "header2", "header3"]⟩

/-- Options with a per-shard maximum `m`, a queue prefix and every other setting left at its
zero value. -/
def sampleOptions (m : Int) : Options :=
  { QueuePrefix := "ec_"
    SheetMaxRows := m
    PoolMax := 0
    GoroutineMax := 0
    IsUploadCloud := false
    Upload := fun filePath => .ok filePath
    LogRootPath := ""
    OutTime := 0 }

/-- The engine that `NewClient` builds from `sampleOptions m` (see `newClient_sampleOptions`):
pool capacity 1, no prefix. -/
def sampleCenter (m : Int) : ExportCenter :=
  { queuePrefix := ""
    sheetMaxRows := m
    poolMax := 1
    goroutineMax := 1
    isUploadCloud := false
    upload := fun filePath => .ok filePath
    logRootPath := ""
    outTime := 5000000000 }

/-- A setup callback that succeeds on every key. -/
def sampleBefore : Option (String → Option String) := some (fun _ => none)

/-- The task `CreateTask` makes on an empty table for key `k` and `count` rows. -/
def sampleCreate (m count : Int) : CreateTaskResult :=
  CreateTask (sampleCenter m) sampleEnv [] [] "k" "name" "description" "source" "destination"
    "xlsx" count testExportOptions

/-- A task of `2 ^ 31` rows created on an engine with a per-shard maximum of 1. -/
def overflowCreate : CreateTaskResult := sampleCreate 1 (2 ^ 31)

/-- The export run of `overflowCreate`, on the queues as `CreateTask` left them. -/
def overflowRun : ExportResult :=
  ExportToExcel (sampleCenter 1) sampleEnv overflowCreate.tasks overflowCreate.queues
    (overflowCreate.id : Int) "./test.xlsx" sampleBefore

/-- A task of 3 rows on an engine with a per-shard maximum of 2: two shards. -/
def twoShardCreate : CreateTaskResult := sampleCreate 2 3

/-- The export run of `twoShardCreate` after two payloads were pushed to the first shard
and one to the second. -/
def twoShardRun : ExportResult :=
  ExportToExcel (sampleCenter 2) sampleEnv twoShardCreate.tasks
    (PushData (PushData (PushData twoShardCreate.queues "k_sheet1" testPayload) "k_sheet1"
      testPayload) "k_sheet2" testPayload)
    (twoShardCreate.id : Int) "./test.xlsx" sampleBefore

/-- The export run of `twoShardCreate` after one payload was pushed to the first shard and
two to the second: all 3 rows are queued, none of the shards holds more than 2. -/
def strandedRun : ExportResult :=
  ExportToExcel (sampleCenter 2) sampleEnv twoShardCreate.tasks
    (PushData (PushData (PushData twoShardCreate.queues "k_sheet1" testPayload) "k_sheet2"
      testPayload) "k_sheet2" testPayload)
    (twoShardCreate.id : Int) "./test.xlsx" sampleBefore

/-- A task of 6 rows on an engine with a per-shard maximum of 2: three shards. -/
def fullShardsCreate : CreateTaskResult := sampleCreate 2 6

/-- The export run of `fullShardsCreate` after two payloads were pushed to each of its
three shards. -/
def fullShardsRun : ExportResult :=
  ExportToExcel (sampleCenter 2) sampleEnv fullShardsCreate.tasks
    (PushData (PushData (PushData (PushData (PushData (PushData fullShardsCreate.queues
      "k_sheet1" testPayload) "k_sheet1" testPayload) "k_sheet2" testPayload) "k_sheet2"
      testPayload) "k_sheet3" testPayload) "k_sheet3" testPayload)
    (fullShardsCreate.id : Int) "./test.xlsx" sampleBefore

/-- A stored task with the given total and status. -/
def sampleTask (countNum : Int) (status : Int) : Task :=
  { ID := 1
    Name := "name"
    Description := "description"
    Status := status
    ProgressRate := 0
    StartTime := none
    EndTime := none
    Source := "source"
    Destination := "destination"
    ExportFormat := "xlsx"
    ExportOptions := "options"
    QueueKey := "k"
    CountNum := countNum
    WriteNum := 0
    ErrNum := 0
    ErrLogUrl := ""
    DownloadUrl := "" }

/-- The export run of `twoShardCreate` with a setup callback that fails on every key. -/
def abortedRun : ExportResult :=
  ExportToExcel (sampleCenter 2) sampleEnv twoShardCreate.tasks
    (PushData (PushData (PushData twoShardCreate.queues "k_sheet1" testPayload) "k_sheet1"
      testPayload) "k_sheet2" testPayload)
    (twoShardCreate.id : Int) "./test.xlsx" (some (fun _ => some "consume failed"))

/-- A task of 1 row on the engine of the tests (per-shard maximum 500000): one shard. -/
def oneRowCreate : CreateTaskResult := sampleCreate 500000 1

/-- The export run of `oneRowCreate` after the empty string and then a well-formed payload
were pushed to its shard. -/
def emptyThenRowRun : ExportResult :=
  ExportToExcel (sampleCenter 500000) sampleEnv oneRowCreate.tasks
    (PushData (PushData oneRowCreate.queues "k_sheet1" "") "k_sheet1" testPayload)
    (oneRowCreate.id : Int) "./test.xlsx" sampleBefore

/-- The fields of a task record that the decision on the outcome sets are the same in
both records. -/
def sameOutcome (a b : Task) : Prop :=
  b.Status = a.Status ∧ b.ProgressRate = a.ProgressRate ∧ b.WriteNum = a.WriteNum ∧
    b.ErrNum = a.ErrNum

/-- The engine that `NewClient` builds from the options of the tests (see
`export_nil_callback_panics`): per-shard maximum 500000, pool capacity 2, no prefix. -/
def testCenter : ExportCenter :=
  { queuePrefix := ""
    sheetMaxRows := 500000
    poolMax := 2
    goroutineMax := 30
    isUploadCloud := false
    upload := fun filePath => .ok filePath
    logRootPath := "log"
    outTime := 5000000000 }

/-- The task that `TestRedisTaskExport` creates (main_test.go:111-126): key "test_redis",
2 rows. -/
def redisTestCreate : CreateTaskResult :=
  CreateTask testCenter sampleEnv [] [] "test_redis" "test_name" "test_file" "测试使用"
    "本地处理的数据" "xlsx" 2 testExportOptions

/-- The export run of `TestRedisTaskExport` (main_test.go:128-140): one payload pushed to
each returned key, then `ExportToExcel` with a nil setup callback. -/
def redisTestRun : ExportResult :=
  ExportToExcel testCenter sampleEnv redisTestCreate.tasks
    (PushData redisTestCreate.queues "test_redis_sheet1" testPayload)
    (redisTestCreate.id : Int) "./test.xlsx" none

/-- A task of 3 rows created on the engine built with a per-shard maximum of -1. -/
def negativeCreate : CreateTaskResult := sampleCreate (-1) 3

/-- The export run of `negativeCreate`. -/
def negativeRun : ExportResult :=
  ExportToExcel (sampleCenter (-1)) sampleEnv negativeCreate.tasks negativeCreate.queues
    (negativeCreate.id : Int) "./test.xlsx" sampleBefore

/-- The export run of `oneRowCreate` after one well-formed payload was pushed to its
shard. -/
def oneRowRun : ExportResult :=
  ExportToExcel (sampleCenter 500000) sampleEnv oneRowCreate.tasks
    (PushData oneRowCreate.queues "k_sheet1" testPayload)
    (oneRowCreate.id : Int) "./test.xlsx" sampleBefore

/-- A second export run of the task of `oneRowRun`, on the state the first run left. -/
def secondRun : ExportResult :=
  ExportToExcel (sampleCenter 500000) sampleEnv oneRowRun.tasks oneRowRun.queues
    (oneRowCreate.id : Int) "./test.xlsx" sampleBefore

/-- A task of 2 rows on the engine of the tests (per-shard maximum 500000): one shard. -/
def twoRowCreate : CreateTaskResult := sampleCreate 500000 2

/-- The export run of `twoRowCreate` after two well-formed payloads were pushed to its
shard. -/
def twoRowRun : ExportResult :=
  ExportToExcel (sampleCenter 500000) sampleEnv twoRowCreate.tasks
    (PushData (PushData twoRowCreate.queues "k_sheet1" testPayload) "k_sheet1" testPayload)
    (twoRowCreate.id : Int) "./test.xlsx" sampleBefore

/-- Every queue of the backend is empty. -/
def allEmpty (qs : Queues) : Prop := ∀ p ∈ qs, p.2 = []

/-! ## Formatting lemmas -/

theorem digitChar_toNat (d : Nat) (h : d < 10) : (Nat.digitChar d).toNat - 48 = d := by
  interval_cases d <;> rfl

theorem toDigitsCore_append (fuel : Nat) : ∀ (n : Nat) (ds : List Char),
    Nat.toDigitsCore 10 fuel n ds = Nat.toDigitsCore 10 fuel n [] ++ ds := by
  induction fuel with
  | zero => intro n ds; simp [Nat.toDigitsCore]
  | succ f ih =>
    intro n ds
    simp only [Nat.toDigitsCore]
    split
    · simp
    · rw [ih (n / 10) (_ :: ds), ih (n / 10) [_]]; simp

theorem digitsValue_append_single (cs : List Char) (c : Char) :
    digitsValue (cs ++ [c]) = digitsValue cs * 10 + (c.toNat - 48) := by
  simp [digitsValue, List.foldl_append]

theorem digitsValue_toDigitsCore (fuel : Nat) : ∀ n : Nat, n < fuel →
    digitsValue (Nat.toDigitsCore 10 fuel n []) = n := by
  induction fuel with
  | zero => intro n h; omega
  | succ f ih =>
    intro n h
    simp only [Nat.toDigitsCore]
    split
    · rename_i h0
      have : n < 10 := by omega
      rw [Nat.mod_eq_of_lt this]
      simp [digitsValue, digitChar_toNat n this]
    · rename_i h0
      rw [toDigitsCore_append, digitsValue_append_single, ih (n / 10) (by omega),
        digitChar_toNat _ (Nat.mod_lt n (by norm_num))]
      omega

theorem natRepr_injective : Function.Injective Nat.repr := by
  intro a b h
  have h1 : (Nat.toDigits 10 a) = (Nat.toDigits 10 b) := by
    have := congrArg String.data h
    simpa [Nat.repr, List.asString] using this
  have ha := digitsValue_toDigitsCore (a + 1) a (by omega)
  have hb := digitsValue_toDigitsCore (b + 1) b (by omega)
  unfold Nat.toDigits at h1
  rw [h1] at ha
  omega

theorem string_append_left_cancel (p a b : String) (h : p ++ a = p ++ b) : a = b := by
  have := congrArg String.data h
  simp only [String.data_append, List.append_cancel_left_eq] at this
  exact String.ext this

theorem fmtInt_ofNat_injective (a b : Nat) (h : fmtInt (Int.ofNat a) = fmtInt (Int.ofNat b)) :
    a = b :=
  natRepr_injective h

theorem specShardKey_injective (pfx key : String) (a b : Nat)
    (h : specShardKey pfx key (Int.ofNat a) = specShardKey pfx key (Int.ofNat b)) : a = b := by
  unfold specShardKey at h
  split at h
  · exact fmtInt_ofNat_injective a b (string_append_left_cancel _ _ _ h)
  · exact fmtInt_ofNat_injective a b (string_append_left_cancel _ _ _ h)

theorem loopIndices_map_nodup (pfx key : String) (n : Int) :
    ((loopIndices n).map (specShardKey pfx key)).Nodup := by
  unfold loopIndices
  rw [List.map_map]
  apply List.Nodup.map_on
  · intro a _ b _ h
    exact specShardKey_injective pfx key a b h
  · exact List.nodup_range' 1 n.toNat

/-! ## Key lists of the loops -/

theorem createQueues_keys (ec : ExportCenter) (env : Env) (key : String) :
    ∀ (l : List Int) (qs : Queues), (createQueues ec env key l qs).err = none →
      (createQueues ec env key l qs).keys = l.map (specShardKey ec.queuePrefix key) ∧
      (createQueues ec env key l qs).called = l.map (specShardKey ec.queuePrefix key) := by
  intro l
  induction l with
  | nil => intro qs _; simp [createQueues]
  | cons i rest ih =>
    intro qs h
    simp only [createQueues] at h ⊢
    split at h
    · simp at h
    · rename_i hq
      simp only [hq]
      simp only at h
      obtain ⟨h1, h2⟩ := ih _ h
      simp only [List.map_cons, h1, h2]
      exact ⟨by simp [specShardKey], by simp [specShardKey]⟩

/-! ## float64 lemmas -/

theorem log2Floor_spec (fuel : Nat) : ∀ n : Nat, 0 < n → n < 2 ^ fuel →
    2 ^ log2Floor fuel n ≤ n ∧ n < 2 ^ (log2Floor fuel n + 1) := by
  induction fuel with
  | zero => intro n h0 h; simp at h; omega
  | succ f ih =>
    intro n h0 h
    unfold log2Floor
    split
    · rename_i h2
      constructor
      · simpa using h0
      · simpa using h2
    · rename_i h2
      have hn2 : 0 < n / 2 := by omega
      have hlt : n / 2 < 2 ^ f := by
        rw [pow_succ] at h
        omega
      obtain ⟨h3, h4⟩ := ih (n / 2) hn2 hlt
      constructor
      · rw [pow_succ]; omega
      · rw [pow_succ]; omega

theorem log2Floor_le_of_lt (n k : Nat) (h0 : 0 < n) (hk : n < 2 ^ k) (hk64 : k ≤ 64) :
    log2Floor 64 n < k := by
  have h64 : n < 2 ^ 64 := lt_of_lt_of_le hk (Nat.pow_le_pow_right (by norm_num) hk64)
  have := (log2Floor_spec 64 n h0 h64).1
  by_contra hcon
  have h1 : 2 ^ k ≤ 2 ^ log2Floor 64 n := Nat.pow_le_pow_right (by norm_num) (by omega)
  omega

theorem divRoundEven_bounds (n d : Nat) :
    n / d ≤ divRoundEven n d ∧ divRoundEven n d ≤ n / d + 1 := by
  unfold divRoundEven
  simp only
  split
  · omega
  · split
    · omega
    · split <;> omega

theorem float64OfNat_small (n : Nat) (h : n < 2 ^ 53) : float64OfNat n = n := by
  unfold float64OfNat
  have hsh : log2Floor 64 n - 52 = 0 := by
    rcases Nat.eq_zero_or_pos n with h0 | h0
    · subst h0; decide
    · have := log2Floor_le_of_lt n 53 h0 h (by norm_num)
      omega
  simp only [hsh, pow_zero, mul_one]
  unfold divRoundEven
  simp [Nat.mod_one]

theorem float64OfNat_large (n : Nat) (h1 : 2 ^ 53 ≤ n) (h2 : n < 2 ^ 63) :
    2 ^ 53 ≤ float64OfNat n ∧ float64OfNat n < 2 ^ 64 := by
  unfold float64OfNat
  have h0 : 0 < n := lt_of_lt_of_le (by norm_num) h1
  have hl := log2Floor_le_of_lt n 63 h0 h2 (by norm_num)
  obtain ⟨hs1, hs2⟩ := log2Floor_spec 64 n h0 (lt_trans h2 (by norm_num))
  have hl53 : 53 ≤ log2Floor 64 n := by
    by_contra hcon
    have : 2 ^ (log2Floor 64 n + 1) ≤ 2 ^ 53 := Nat.pow_le_pow_right (by norm_num) (by omega)
    omega
  obtain ⟨sh, hsh⟩ : ∃ sh, log2Floor 64 n = 52 + sh := ⟨log2Floor 64 n - 52, by omega⟩
  have hsh1 : 1 ≤ sh := by omega
  have hsh10 : sh ≤ 10 := by omega
  simp only [hsh, Nat.add_sub_cancel_left]
  rw [hsh, pow_add] at hs1
  obtain ⟨hb1, hb2⟩ := divRoundEven_bounds n (2 ^ sh)
  have hpos : 0 < 2 ^ sh := by positivity
  have hq : 2 ^ 52 ≤ n / 2 ^ sh := by
    rw [Nat.le_div_iff_mul_le hpos]; exact hs1
  have hsh2 : 2 ≤ 2 ^ sh := by
    calc 2 = 2 ^ 1 := by norm_num
      _ ≤ 2 ^ sh := Nat.pow_le_pow_right (by norm_num) hsh1
  have hsh3 : 2 ^ sh ≤ 2 ^ 10 := Nat.pow_le_pow_right (by norm_num) hsh10
  constructor
  · calc 2 ^ 53 = 2 ^ 52 * 2 := by norm_num
      _ ≤ (n / 2 ^ sh) * 2 ^ sh := Nat.mul_le_mul hq hsh2
      _ ≤ divRoundEven n (2 ^ sh) * 2 ^ sh := Nat.mul_le_mul_right _ hb1
  · have h5 : n / 2 ^ sh * 2 ^ sh ≤ n := Nat.div_mul_le_self n (2 ^ sh)
    calc divRoundEven n (2 ^ sh) * 2 ^ sh ≤ (n / 2 ^ sh + 1) * 2 ^ sh := Nat.mul_le_mul_right _ hb2
      _ = n / 2 ^ sh * 2 ^ sh + 2 ^ sh := by ring
      _ ≤ n + 2 ^ 10 := Nat.add_le_add h5 hsh3
      _ < 2 ^ 64 := by norm_num at h2 ⊢; omega

theorem float64Div_pair (a b n : Nat) :
    (divRoundEven (a * 2 ^ ((n : Int)).toNat) (b * 2 ^ (-(n : Int)).toNat), (n : Int)) =
      (divRoundEven (a * 2 ^ n) b, (n : Int)) := by
  have h1 : ((n : Int)).toNat = n := by omega
  have h2 : (-(n : Int)).toNat = 0 := by omega
  rw [h1, h2, pow_zero, mul_one]

theorem float64Div_spec (a b : Nat) (ha0 : 0 < a) (ha : a < 2 ^ 53) (hb0 : 0 < b)
    (hb : b < 2 ^ 64) :
    ∃ t : Nat, float64Div a b = (divRoundEven (a * 2 ^ t) b, (t : Int)) ∧
      b * 2 ^ 52 ≤ a * 2 ^ t := by
  obtain ⟨ha1, ha2⟩ := log2Floor_spec 64 a ha0 (lt_trans ha (by norm_num))
  obtain ⟨hb1, hb2⟩ := log2Floor_spec 64 b hb0 hb
  have hla : log2Floor 64 a < 53 := log2Floor_le_of_lt a 53 ha0 ha (by norm_num)
  have hlb : log2Floor 64 b < 64 := log2Floor_le_of_lt b 64 hb0 hb (by norm_num)
  generalize hladef : log2Floor 64 a = la at *
  generalize hlbdef : log2Floor 64 b = lb at *
  unfold float64Div
  simp only [hladef, hlbdef]
  rcases Nat.lt_or_ge la lb with hlt | hge
  · -- the quotient is below one
    obtain ⟨k, hk⟩ : ∃ k, lb = la + k := ⟨lb - la, by omega⟩
    have hd : ((la : Int) - (lb : Int)) = -(k : Int) := by omega
    have hd1 : (-(k : Int)).toNat = 0 := by omega
    have hd2 : (- -(k : Int)).toNat = k := by omega
    simp only [hd, hd1, hd2, pow_zero, mul_one]
    split
    · rename_i htest
      refine ⟨52 + k, ?_, ?_⟩
      · have e3 : ((52 : Int) - -(k : Int)) = ((52 + k : Nat) : Int) := by push_cast; ring
        rw [e3]
        exact float64Div_pair a b _
      · rw [pow_add]
        calc b * 2 ^ 52 ≤ (a * 2 ^ k) * 2 ^ 52 := Nat.mul_le_mul_right _ htest
          _ = a * (2 ^ 52 * 2 ^ k) := by ring
    · refine ⟨53 + k, ?_, ?_⟩
      · have e3 : ((52 : Int) - (-(k : Int) - 1)) = ((53 + k : Nat) : Int) := by push_cast; ring
        rw [e3]
        exact float64Div_pair a b _
      · rw [hk] at hb2
        have h1 : b * 2 ^ 52 ≤ 2 ^ (la + k + 1) * 2 ^ 52 := Nat.mul_le_mul_right _ (le_of_lt hb2)
        have h2 : 2 ^ (la + k + 1) * 2 ^ 52 = 2 ^ la * 2 ^ (53 + k) := by
          rw [← pow_add, ← pow_add]; congr 1; omega
        calc b * 2 ^ 52 ≤ 2 ^ la * 2 ^ (53 + k) := by rw [← h2]; exact h1
          _ ≤ a * 2 ^ (53 + k) := Nat.mul_le_mul_right _ ha1
  · obtain ⟨k, hk⟩ : ∃ k, la = lb + k := ⟨la - lb, by omega⟩
    have hk52 : k ≤ 52 := by omega
    have hd : ((la : Int) - (lb : Int)) = (k : Int) := by omega
    have hd1 : ((k : Int)).toNat = k := by omega
    have hd2 : (-(k : Int)).toNat = 0 := by omega
    simp only [hd, hd1, hd2, pow_zero, mul_one]
    split
    · rename_i htest
      refine ⟨52 - k, ?_, ?_⟩
      · have e3 : ((52 : Int) - (k : Int)) = ((52 - k : Nat) : Int) := by omega
        rw [e3]
        exact float64Div_pair a b _
      · have h2 : (2 : Nat) ^ 52 = 2 ^ k * 2 ^ (52 - k) := by
          rw [← pow_add]; congr 1; omega
        calc b * 2 ^ 52 = (b * 2 ^ k) * 2 ^ (52 - k) := by rw [h2]; ring
          _ ≤ a * 2 ^ (52 - k) := Nat.mul_le_mul_right _ htest
    · refine ⟨53 - k, ?_, ?_⟩
      · have e3 : ((52 : Int) - ((k : Int) - 1)) = ((53 - k : Nat) : Int) := by omega
        rw [e3]
        exact float64Div_pair a b _
      · have h1 : b * 2 ^ 52 ≤ 2 ^ (lb + 1) * 2 ^ 52 := Nat.mul_le_mul_right _ (le_of_lt hb2)
        have h2 : 2 ^ (lb + 1) * 2 ^ 52 = 2 ^ la * 2 ^ (53 - k) := by
          rw [← pow_add, ← pow_add]; congr 1; omega
        calc b * 2 ^ 52 ≤ 2 ^ la * 2 ^ (53 - k) := by rw [← h2]; exact h1
          _ ≤ a * 2 ^ (53 - k) := Nat.mul_le_mul_right _ ha1

theorem ceilDiv_eq (a b : Nat) (hb0 : 0 < b) :
    (a + b - 1) / b = if a % b = 0 then a / b else a / b + 1 := by
  have hdm := Nat.div_add_mod a b
  have hlt := Nat.mod_lt a hb0
  split
  · rename_i h0
    apply Nat.div_eq_of_lt_le
    · rw [h0] at hdm; rw [Nat.mul_comm]; omega
    · rw [h0] at hdm
      have : (a / b + 1) * b = b * (a / b) + b := by ring
      omega
  · rename_i h0
    apply Nat.div_eq_of_lt_le
    · have : (a / b + 1) * b = b * (a / b) + b := by ring
      omega
    · have : (a / b + 1 + 1) * b = b * (a / b) + b + b := by ring
      omega

theorem ceilScaled_divRoundEven (a b t : Nat) (ha : a < 2 ^ 53) (hb0 : 0 < b)
    (hN : b * 2 ^ 52 ≤ a * 2 ^ t) :
    ceilScaled (divRoundEven (a * 2 ^ t) b) (t : Int) = ((a + b - 1) / b : Nat) := by
  have hP : 0 < 2 ^ t := by positivity
  generalize hPdef : 2 ^ t = P at *
  have hb2P : b < 2 * P := by
    have h1 : a * P < 2 ^ 53 * P := Nat.mul_lt_mul_of_pos_right ha hP
    have h2 : b * 2 ^ 52 < (2 * P) * 2 ^ 52 := by
      calc b * 2 ^ 52 ≤ a * P := hN
        _ < 2 ^ 53 * P := h1
        _ = (2 * P) * 2 ^ 52 := by ring
    exact Nat.lt_of_mul_lt_mul_right h2
  have hdm := Nat.div_add_mod a b
  have hlt := Nat.mod_lt a hb0
  have hdmP := Nat.div_add_mod (a * P) b
  have hltP := Nat.mod_lt (a * P) hb0
  generalize hn : a / b = n at *
  generalize hrem : a % b = rem at *
  generalize hq : (a * P) / b = q at *
  generalize hr : (a * P) % b = r at *
  have haP : a * P = b * (n * P) + rem * P := by rw [← hdm]; ring
  have F1 : n * P ≤ q := by
    by_contra hcon
    have h1 : q + 1 ≤ n * P := by omega
    have h2 : b * (q + 1) ≤ b * (n * P) := Nat.mul_le_mul_left b h1
    have h3 : b * (q + 1) = b * q + b := by ring
    have h4 : 0 ≤ rem * P := Nat.zero_le _
    omega
  have hmant : divRoundEven (a * P) b =
      if rem = 0 then n * P else divRoundEven (a * P) b := by
    split
    · rename_i h0
      subst h0
      have h5 : a * P = b * (n * P) := by omega
      unfold divRoundEven
      have e1 : a * P / b = n * P := by
        rw [h5]; exact Nat.mul_div_cancel_left _ hb0
      have e2 : a * P % b = 0 := by
        rw [h5]; exact Nat.mul_mod_right _ _
      simp only [e1, e2, mul_zero, hb0, if_true]
    · rfl
  have hcs : ceilScaled (divRoundEven (a * P) b) (t : Int) =
      ((divRoundEven (a * P) b + P - 1) / P : Nat) := by
    unfold ceilScaled
    have h1 : (0 : Int) ≤ (t : Int) := Int.natCast_nonneg t
    have h2 : ((t : Int)).toNat = t := by omega
    simp only [h1, if_true, h2, hPdef]
  rw [hcs, ceilDiv_eq a b hb0, hn, hrem]
  congr 1
  by_cases h0 : rem = 0
  · rw [hmant]
    simp only [h0, if_true]
    apply Nat.div_eq_of_lt_le
    · omega
    · have : (n + 1) * P = n * P + P := by ring
      omega
  · simp only [h0, if_false]
    have hrem1 : 1 ≤ rem := by omega
    have hremP : P ≤ rem * P := by
      calc P = 1 * P := by ring
        _ ≤ rem * P := Nat.mul_le_mul_right P hrem1
    have F2 : q + 1 ≤ (n + 1) * P := by
      by_contra hcon
      have h1 : (n + 1) * P ≤ q := by omega
      have h2 : b * ((n + 1) * P) ≤ b * q := Nat.mul_le_mul_left b h1
      have h3 : b * ((n + 1) * P) = b * (n * P) + b * P := by ring
      have h4 : rem * P < b * P := Nat.mul_lt_mul_of_pos_right hlt hP
      omega
    have F3 : q ≤ n * P → b < 2 * r := by
      intro hle
      have h1 : b * q ≤ b * (n * P) := Nat.mul_le_mul_left b hle
      omega
    have hlow : n * P + 1 ≤ divRoundEven (a * P) b ∧ divRoundEven (a * P) b ≤ (n + 1) * P := by
      unfold divRoundEven
      simp only [hq, hr]
      split
      · rename_i hbr
        constructor
        · by_contra hcon
          have := F3 (by omega)
          omega
        · omega
      · split
        · constructor <;> omega
        · rename_i h1 h2
          have hq1 : n * P + 1 ≤ q := by
            by_contra hcon
            have := F3 (by omega)
            omega
          split <;> constructor <;> omega
    obtain ⟨hl1, hl2⟩ := hlow
    apply Nat.div_eq_of_lt_le
    · have : (n + 1) * P = n * P + P := by ring
      omega
    · have : (n + 1 + 1) * P = (n + 1) * P + P := by ring
      omega

theorem ceil_rat_eq (a b : Nat) (hb0 : 0 < b) :
    ⌈(a : ℚ) / (b : ℚ)⌉ = (((a + b - 1) / b : Nat) : Int) := by
  have hbq : (0 : ℚ) < (b : ℚ) := by exact_mod_cast hb0
  have hdm := Nat.div_add_mod a b
  have hlt := Nat.mod_lt a hb0
  rw [ceilDiv_eq a b hb0, Int.ceil_eq_iff]
  generalize a / b = n at *
  generalize a % b = r at *
  have hcast : (a : ℚ) = (b : ℚ) * (n : ℚ) + (r : ℚ) := by exact_mod_cast hdm.symm
  have hrb : (r : ℚ) < (b : ℚ) := by exact_mod_cast hlt
  split
  · rename_i h0
    subst h0
    push_cast at hcast ⊢
    constructor
    · rw [lt_div_iff₀ hbq]; nlinarith
    · rw [div_le_iff₀ hbq]; nlinarith
  · rename_i h0
    have hr1 : (1 : ℚ) ≤ (r : ℚ) := by
      have : 1 ≤ r := by omega
      exact_mod_cast this
    push_cast
    constructor
    · rw [lt_div_iff₀ hbq]; nlinarith
    · rw [div_le_iff₀ hbq]; nlinarith

theorem sheetCount_eq_ceil (c m : Int) (hc0 : 0 ≤ c) (hc : c < 2 ^ 53) (hm0 : 0 < m)
    (hm : m < 2 ^ 63) : sheetCount c m = ⌈(c : ℚ) / (m : ℚ)⌉ := by
  obtain ⟨a, rfl⟩ := Int.eq_ofNat_of_zero_le hc0
  obtain ⟨mm, rfl⟩ := Int.eq_ofNat_of_zero_le (le_of_lt hm0)
  have ha : a < 2 ^ 53 := by exact_mod_cast hc
  have hmm0 : 0 < mm := by exact_mod_cast hm0
  have hmm : mm < 2 ^ 63 := by exact_mod_cast hm
  have hq : ((a : Int) : ℚ) / ((mm : Int) : ℚ) = (a : ℚ) / (mm : ℚ) := by push_cast; rfl
  rw [hq, ceil_rat_eq a mm hmm0]
  unfold sheetCount
  have hm1 : ¬ ((mm : Int) = 0) := by omega
  simp only [hm1, if_false]
  rcases Nat.eq_zero_or_pos a with h0 | h0
  · subst h0
    have e : (0 + mm - 1) / mm = 0 := Nat.div_eq_of_lt (by omega)
    rw [e]
    simp
  · have ha1 : ¬ ((a : Int) = 0) := by omega
    have hpos : (0 < (a : Int) ∧ 0 < (mm : Int)) ∨ ((a : Int) < 0 ∧ (mm : Int) < 0) :=
      Or.inl ⟨by omega, by omega⟩
    simp only [ha1, if_false, hpos, if_true, Int.natAbs_ofNat, float64OfNat_small a ha]
    have hb : 0 < float64OfNat mm ∧ float64OfNat mm < 2 ^ 64 ∧
        (a + float64OfNat mm - 1) / float64OfNat mm = (a + mm - 1) / mm := by
      rcases Nat.lt_or_ge mm (2 ^ 53) with hsmall | hlarge
      · rw [float64OfNat_small mm hsmall]
        exact ⟨hmm0, lt_trans hsmall (by norm_num), rfl⟩
      · obtain ⟨h1, h2⟩ := float64OfNat_large mm hlarge hmm
        refine ⟨lt_of_lt_of_le (by norm_num) h1, h2, ?_⟩
        have e1 : (a + float64OfNat mm - 1) / float64OfNat mm = 1 := by
          apply Nat.div_eq_of_lt_le <;> omega
        have e2 : (a + mm - 1) / mm = 1 := by
          apply Nat.div_eq_of_lt_le <;> omega
        rw [e1, e2]
    obtain ⟨hb0, hb64, hbeq⟩ := hb
    obtain ⟨t, ht, hN⟩ := float64Div_spec a (float64OfNat mm) h0 ha hb0 hb64
    rw [ht]
    simp only
    rw [ceilScaled_divRoundEven a (float64OfNat mm) t ha hb0 hN, hbeq]
    unfold intOfFloat minInt64
    have hle : (a + mm - 1) / mm ≤ a := by
      rw [ceilDiv_eq a mm hmm0]
      have hdm := Nat.div_add_mod a mm
      have h1 : a / mm ≤ mm * (a / mm) := Nat.le_mul_of_pos_left _ hmm0
      split <;> omega
    have hr : (-(2 ^ 63) : Int) ≤ (((a + mm - 1) / mm : Nat) : Int) ∧
        (((a + mm - 1) / mm : Nat) : Int) < 2 ^ 63 := by
      constructor
      · have : (0 : Int) ≤ (((a + mm - 1) / mm : Nat) : Int) := Int.natCast_nonneg _
        omega
      · have : (((a + mm - 1) / mm : Nat) : Int) ≤ (a : Int) := by exact_mod_cast hle
        omega
    simp only [hr, and_self, if_true]

/-! ## Shard planning: claims C2, C3, C4 -/

theorem newClient_sampleOptions (m : Int) (hm : m ≠ 0) :
    NewClient sampleEnv (sampleOptions m) = .ok (sampleCenter m) := by
  unfold NewClient
  simp only [sampleOptions, hm, if_false]
  rfl

theorem createTask_ok (ec : ExportCenter) (env : Env) (tasks : List Task)
    (queues : Queues) (key name description source destination format : String) (count : Int)
    (options : ExportOptions)
    (h : (CreateTask ec env tasks queues key name description source destination format count
      options).err = none) :
    ∃ row : Task, row.ID = nextID tasks ∧ row.QueueKey = key ∧ row.CountNum = count ∧
      (CreateTask ec env tasks queues key name description source destination format count
        options).tasks = tasks ++ [row] ∧
      (CreateTask ec env tasks queues key name description source destination format count
        options).id = row.ID ∧
      (CreateTask ec env tasks queues key name description source destination format count
        options).keys =
        (loopIndices (sheetCount count ec.sheetMaxRows)).map (specShardKey ec.queuePrefix key) ∧
      (CreateTask ec env tasks queues key name description source destination format count
        options).calls.createQueue =
        (loopIndices (sheetCount count ec.sheetMaxRows)).map
          (specShardKey ec.queuePrefix key) := by
  unfold CreateTask at h ⊢
  cases hm : env.marshalOptions options with
  | error e => simp [hm] at h
  | ok marshal =>
    simp only [hm] at h ⊢
    unfold Task.Create at h ⊢
    cases hc : env.dbError DbOp.create with
    | some e => simp [hc] at h
    | none =>
      simp only [hc] at h ⊢
      split at h
      · simp at h
      · rename_i herr
        obtain ⟨h1, h2⟩ := createQueues_keys ec env _ _ _ herr
        simp only [herr]
        exact ⟨_, rfl, rfl, rfl, rfl, rfl, h1, h2⟩

theorem createTask_keys_nodup (ec : ExportCenter) (env : Env) (tasks : List Task)
    (queues : Queues) (key name description source destination format : String) (count : Int)
    (options : ExportOptions) :
    (CreateTask ec env tasks queues key name description source destination format count
      options).keys.Nodup := by
  cases herr : (CreateTask ec env tasks queues key name description source destination format
      count options).err with
  | none =>
    obtain ⟨_, _, _, _, _, _, hk, _⟩ := createTask_ok ec env tasks queues key name description
      source destination format count options herr
    rw [hk]
    exact loopIndices_map_nodup _ _ _
  | some e =>
    have hk : (CreateTask ec env tasks queues key name description source destination format
        count options).keys = [] := by
      unfold CreateTask at herr ⊢
      cases hm : env.marshalOptions options with
      | error e => simp [hm]
      | ok marshal =>
        simp only [hm] at herr ⊢
        cases hc : Task.Create env tasks _ with
        | error e => simp [hc]
        | ok p =>
          simp only [hc] at herr ⊢
          split at herr
          · rename_i h1
            simp only [h1]
          · simp at herr
    rw [hk]
    exact List.nodup_nil

/-- C2 (code at the failing input): the engine that `NewClient` builds from the options of
the test, with `QueuePrefix` "ec_", has an empty `queuePrefix`; `CreateTask` on it with key
"test_mq" and count 2 returns the single key "test_mq_sheet1", which is not the key
"ec__test_mq_sheet1" of the specified format. -/
theorem newClient_drops_queuePrefix :
    ∃ ec, NewClient sampleEnv testOptions = .ok ec ∧ ec.queuePrefix = "" ∧
      (CreateTask ec sampleEnv [] [] "test_mq" "test_name" "test_file" "测试使用"
        "本地处理的数据" "xlsx" 2 testExportOptions).keys = ["test_mq_sheet1"] ∧
      specShardKey testOptions.QueuePrefix "test_mq" 1 = "ec__test_mq_sheet1" ∧
      "test_mq_sheet1" ≠ specShardKey testOptions.QueuePrefix "test_mq" 1 :=
  ⟨_, rfl, rfl, by decide, by decide, by decide⟩

/-- C3 (counterexample): for `count = 2 ^ 53 + 1` and a per-shard maximum of 1 the shard
count computed through float64 is `2 ^ 53`, not the exact ceiling `2 ^ 53 + 1`. -/
theorem sheetCount_ne_ceil_large :
    sheetCount (2 ^ 53 + 1) 1 = 2 ^ 53 ∧
      sheetCount (2 ^ 53 + 1) 1 ≠ ⌈(((2 ^ 53 + 1 : Int)) : ℚ) / (((1 : Int)) : ℚ)⌉ := by
  have h1 : sheetCount (2 ^ 53 + 1) 1 = 2 ^ 53 := by decide
  refine ⟨h1, ?_⟩
  rw [h1]
  have h2 : ⌈(((2 ^ 53 + 1 : Int)) : ℚ) / (((1 : Int)) : ℚ)⌉ = 2 ^ 53 + 1 := by
    rw [Int.cast_one, div_one, Int.ceil_intCast]
  rw [h2]
  norm_num

/-- C3 (amended): for every total row count `0 ≤ c < 2 ^ 53` and every per-shard maximum
`0 < m < 2 ^ 63`, the shard count computed as
`int(math.Ceil(float64(c) / float64(m)))` equals the exact integer ceiling of `c / m`; and
`c = 1000001`, `m = 500000` give 3. -/
theorem sheetCount_eq_exact_ceiling (c m : Int) (hc0 : 0 ≤ c) (hc : c < 2 ^ 53) (hm0 : 0 < m)
    (hm : m < 2 ^ 63) :
    sheetCount c m = ⌈(c : ℚ) / (m : ℚ)⌉ ∧ sheetCount 1000001 500000 = 3 :=
  ⟨sheetCount_eq_ceil c m hc0 hc hm0 hm, by decide⟩

/-- Witness for C3: the amended claim at `c = 1000001`, `m = 500000`. -/
theorem sheetCount_eq_exact_ceiling_witness :
    (0 : Int) ≤ 1000001 ∧ (1000001 : Int) < 2 ^ 53 ∧ (0 : Int) < 500000 ∧
      (500000 : Int) < 2 ^ 63 ∧
      sheetCount 1000001 500000 = ⌈((1000001 : Int) : ℚ) / ((500000 : Int) : ℚ)⌉ ∧
      sheetCount 1000001 500000 = 3 :=
  ⟨by decide, by decide, by decide, by decide,
    sheetCount_eq_exact_ceiling 1000001 500000 (by decide) (by decide) (by decide) (by decide)⟩

/-- C4: in the list of shard keys that `CreateTask` returns, whatever the prefix, the task
queue key, the count and the per-shard maximum, the keys at two distinct positions (shard
indices `i + 1` and `j + 1`) are different strings. -/
theorem createTask_keys_collision_free (ec : ExportCenter) (env : Env) (tasks : List Task)
    (queues : Queues) (key name description source destination format : String) (count : Int)
    (options : ExportOptions) (i j : Nat)
    (hi : i < (CreateTask ec env tasks queues key name description source destination format
      count options).keys.length)
    (hj : j < (CreateTask ec env tasks queues key name description source destination format
      count options).keys.length)
    (hij : i ≠ j) :
    (CreateTask ec env tasks queues key name description source destination format count
      options).keys[i] ≠
    (CreateTask ec env tasks queues key name description source destination format count
      options).keys[j] := by
  intro h
  exact hij ((List.Nodup.getElem_inj_iff
    (createTask_keys_nodup ec env tasks queues key name description source destination format
      count options)).1 h)

/-- Witness for C4: a task of 3 rows with a per-shard maximum of 2 has two keys, and the
key at position 0 differs from the key at position 1. -/
theorem createTask_keys_collision_free_witness :
    ∃ (hi : 0 < (sampleCreate 2 3).keys.length) (hj : 1 < (sampleCreate 2 3).keys.length),
      (0 : Nat) ≠ 1 ∧ (sampleCreate 2 3).keys[0] ≠ (sampleCreate 2 3).keys[1] :=
  ⟨by decide, by decide, by decide,
    createTask_keys_collision_free (sampleCenter 2) sampleEnv [] [] "k" "name" "description"
      "source" "destination" "xlsx" 3 testExportOptions 0 1 (by decide) (by decide)
      (by decide)⟩


/-! ## Export run lemmas -/

theorem setupShards_before (ec : ExportCenter) (env : Env) (task : Task)
    (before : Option (String → Option String)) (headers : List String) :
    ∀ l : List Int, (setupShards ec env task before headers l).exit = none →
      (setupShards ec env task before headers l).before =
        l.map (specShardKey ec.queuePrefix task.QueueKey) := by
  intro l
  induction l with
  | nil => intro _; simp [setupShards]
  | cons i rest ih =>
    intro h
    cases before with
    | none => simp [setupShards] at h
    | some callback =>
      simp only [setupShards] at h ⊢
      have hk : (if ec.queuePrefix ≠ "" then
          ec.queuePrefix ++ "_" ++ task.QueueKey ++ "_sheet" ++ fmtInt i
          else task.QueueKey ++ "_sheet" ++ fmtInt i) =
          specShardKey ec.queuePrefix task.QueueKey i := rfl
      rw [hk] at h ⊢
      cases h1 : callback (specShardKey ec.queuePrefix task.QueueKey i) with
      | some err => simp [h1] at h
      | none =>
        simp only [h1] at h ⊢
        cases h2 : (if i > 1 then env.newSheetError i else none) with
        | some err => simp [h2] at h
        | none =>
          simp only [h2] at h ⊢
          cases h3 : env.newStreamWriterError i with
          | some err => simp [h3] at h
          | none =>
            simp only [h3] at h ⊢
            cases h4 : env.setHeaderError i with
            | some err => simp [h4] at h
            | none =>
              simp only [h4] at h ⊢
              rw [List.map_cons, ih h]

theorem runWorkers_popKeys (ec : ExportCenter) (env : Env) (task : Task) :
    ∀ (l : List Int) (qs : Queues) (st : RunState),
      (runWorkers ec env task l qs st).crashed = false →
      (runWorkers ec env task l qs st).popKeys =
        l.map (fun i => specShardKey ec.queuePrefix task.QueueKey (toInt32 (i + 1))) := by
  intro l
  induction l with
  | nil => intro qs st _; simp [runWorkers]
  | cons i rest ih =>
    intro qs st h
    simp only [runWorkers] at h ⊢
    split at h
    · simp at h
    · rename_i st1 remaining hw
      simp only [hw]
      simp only at h
      rw [List.map_cons, ih _ _ h]
      simp [specShardKey]

theorem destroyQueues_keys (ec : ExportCenter) (task : Task) :
    ∀ (l : List Int) (qs : Queues),
      (destroyQueues ec task l qs).2 = l.map (specShardKey ec.queuePrefix task.QueueKey) := by
  intro l
  induction l with
  | nil => intro qs; simp [destroyQueues]
  | cons i rest ih =>
    intro qs
    simp only [destroyQueues, List.map_cons, ih]
    simp [specShardKey]

theorem toInt32_of_small (i : Int) (h0 : -(2 ^ 31) ≤ i) (h1 : i < 2 ^ 31) : toInt32 i = i := by
  unfold toInt32
  omega

theorem loopIndices0_map_toInt32 (f : Int → String) (n : Int) (hn : n < 2 ^ 31) :
    (loopIndices0 n).map (fun i => f (toInt32 (i + 1))) = (loopIndices n).map f := by
  unfold loopIndices0 loopIndices
  rw [List.range_eq_range', List.map_map, List.map_map]
  have h : List.range' 1 n.toNat = (List.range' 0 n.toNat).map (fun k => 1 + k) := by
    rw [List.map_add_range']
  rw [h, List.map_map]
  apply List.map_congr_left
  intro k hk
  have hk1 : k < n.toNat := by
    have := List.mem_range'.1 hk
    omega
  simp only [Function.comp]
  have e : (Int.ofNat k + 1) = Int.ofNat (1 + k) := by
    simp only [Int.ofNat_eq_coe]; push_cast; ring
  rw [e, toInt32_of_small]
  · have : (0 : Int) ≤ Int.ofNat (1 + k) := Int.ofNat_nonneg _
    omega
  · have : (Int.ofNat (1 + k)) = (k : Int) + 1 := by
      simp only [Int.ofNat_eq_coe]; push_cast; ring
    omega

theorem exportBody_reaches_save (ec : ExportCenter) (env : Env) (tasks : List Task)
    (queues : Queues) (id : Int) (filePath : String)
    (before : Option (String → Option String))
    (h : (exportBody ec env tasks queues id filePath before).calls.saveAs ≠ []) :
    ∃ task, GetTask env tasks id = .ok task ∧
      (exportBody ec env tasks queues id filePath before).calls.before =
        (loopIndices (sheetCount task.CountNum ec.sheetMaxRows)).map
          (specShardKey ec.queuePrefix task.QueueKey) ∧
      (exportBody ec env tasks queues id filePath before).calls.popKeys =
        (loopIndices0 (sheetCount task.CountNum ec.sheetMaxRows)).map
          (fun i => specShardKey ec.queuePrefix task.QueueKey (toInt32 (i + 1))) ∧
      (exportBody ec env tasks queues id filePath before).calls.destroy =
        (loopIndices (sheetCount task.CountNum ec.sheetMaxRows)).map
          (specShardKey ec.queuePrefix task.QueueKey) := by
  unfold exportBody at h ⊢
  cases hget : GetTask env tasks id with
  | error e => simp [hget] at h
  | ok task =>
    simp only [hget] at h ⊢
    cases hcons : ConsultTask env tasks id with
    | error e => simp [hcons] at h
    | ok tasks1 =>
      simp only [hcons] at h ⊢
      cases hopt : env.unmarshalOptions task.ExportOptions with
      | error e => simp [hopt] at h
      | ok options =>
        simp only [hopt] at h ⊢
        cases hsetup : (setupShards ec env task before options.Header
            (loopIndices (sheetCount task.CountNum ec.sheetMaxRows))).exit with
        | some e => simp [hsetup] at h
        | none =>
          simp only [hsetup] at h ⊢
          cases hcrash : (runWorkers ec env task
              (loopIndices0 (sheetCount task.CountNum ec.sheetMaxRows)) queues
              initRunState).crashed with
          | true => simp [hcrash] at h
          | false =>
            simp only [hcrash] at h ⊢
            rcases hs : settleTask env tasks1 id task (runWorkers ec env task
              (loopIndices0 (sheetCount task.CountNum ec.sheetMaxRows)) queues
              initRunState).state with ⟨tasks2, err, flag⟩
            cases flag with
            | true => simp [hs] at h
            | false =>
              simp only [hs]
              refine ⟨task, rfl, ?_, ?_, ?_⟩
              · exact setupShards_before ec env task before options.Header _ hsetup
              · exact runWorkers_popKeys ec env task _ _ _ hcrash
              · exact destroyQueues_keys ec task _ _

theorem exportToExcel_calls (ec : ExportCenter) (env : Env) (tasks : List Task)
    (queues : Queues) (id : Int) (filePath : String)
    (before : Option (String → Option String)) :
    (ExportToExcel ec env tasks queues id filePath before).calls =
      (exportBody ec env tasks queues id filePath before).calls := by
  unfold ExportToExcel
  simp only
  split
  · rfl
  · split <;> rfl

theorem nextID_gt (tasks : List Task) : ∀ t ∈ tasks, t.ID < nextID tasks := by
  induction tasks with
  | nil => intro t ht; simp at ht
  | cons a rest ih =>
    intro t ht
    unfold nextID at ih ⊢
    simp only [List.map_cons, List.foldr_cons]
    rcases List.mem_cons.1 ht with h | h
    · subst h; omega
    · have := ih t h
      omega

theorem getTask_append_fresh (env : Env) (tasks : List Task) (row task : Task)
    (hrow : row.ID = nextID tasks)
    (h : GetTask env (tasks ++ [row]) (row.ID : Int) = .ok task) : task = row := by
  unfold GetTask Task.FindByID at h
  cases hdb : env.dbError DbOp.find with
  | some e => simp [hdb] at h
  | none =>
    simp only [hdb] at h
    have hnone : tasks.find? (fun t => decide ((t.ID : Int) = (row.ID : Int))) = none := by
      rw [List.find?_eq_none]
      intro t ht
      have := nextID_gt tasks t ht
      simp only [decide_eq_true_eq]
      omega
    rw [List.find?_append, hnone] at h
    simp at h
    exact h.symm

theorem createQueue_allEmpty (qs : Queues) (key : String) (hqs : allEmpty qs) :
    allEmpty (Queue.CreateQueue qs key) := by
  unfold Queue.CreateQueue
  split
  · exact hqs
  · intro p hp
    rcases List.mem_append.1 hp with h | h
    · exact hqs p h
    · simp at h
      rw [h]

theorem createQueues_no_fault (ec : ExportCenter) (env : Env) (key : String)
    (henv : ∀ k, env.createQueueError k = none) :
    ∀ (l : List Int) (qs : Queues), (createQueues ec env key l qs).err = none ∧
      (allEmpty qs → allEmpty (createQueues ec env key l qs).queues) := by
  intro l
  induction l with
  | nil => intro qs; simp [createQueues]
  | cons i rest ih =>
    intro qs
    simp only [createQueues, henv]
    exact ⟨(ih _).1, fun hqs => (ih _).2 (createQueue_allEmpty qs _ hqs)⟩

theorem pending_of_allEmpty (qs : Queues) (key : String) (h : allEmpty qs) :
    Queue.Pending qs key = [] := by
  unfold Queue.Pending
  cases hl : List.lookup key qs with
  | none => rfl
  | some v =>
    induction qs with
    | nil => simp at hl
    | cons p rest ih =>
      obtain ⟨k, w⟩ := p
      simp only [List.lookup] at hl
      split at hl
      · have hw := h (k, w) (List.mem_cons_self _ _)
        simp only [Option.some.injEq] at hl
        simp only [Option.getD_some]
        rw [← hl]
        exact hw
      · exact ih (fun q hq => h q (List.mem_cons_of_mem _ hq)) hl

theorem setPending_allEmpty (qs : Queues) (key : String) (h : allEmpty qs) :
    allEmpty (Queue.SetPending qs key []) := by
  intro p hp
  unfold Queue.SetPending at hp
  obtain ⟨q, hq, rfl⟩ := List.mem_map.1 hp
  split
  · rfl
  · exact h q hq

theorem runWorkers_allEmpty (ec : ExportCenter) (env : Env) (task : Task) :
    ∀ (l : List Int) (qs : Queues) (st : RunState), allEmpty qs →
      (runWorkers ec env task l qs st).crashed = false := by
  intro l
  induction l with
  | nil => intro qs st _; rfl
  | cons i rest ih =>
    intro qs st hqs
    simp only [runWorkers, pending_of_allEmpty qs _ hqs, workerLoop]
    exact ih _ _ (setPending_allEmpty qs _ hqs)

theorem setupShards_no_fault (ec : ExportCenter) (env : Env) (task : Task)
    (callback : String → Option String) (headers : List String)
    (hcb : ∀ k, callback k = none) (h1 : ∀ i, env.newSheetError i = none)
    (h2 : ∀ i, env.newStreamWriterError i = none) (h3 : ∀ i, env.setHeaderError i = none) :
    ∀ l : List Int, (setupShards ec env task (some callback) headers l).exit = none := by
  intro l
  induction l with
  | nil => rfl
  | cons i rest ih =>
    simp only [setupShards, hcb, h1, h2, h3, ite_self]
    exact ih

theorem settleTask_continues (env : Env) (tasks : List Task) (id : Int) (task : Task)
    (st : RunState) (hc : env.dbError DbOp.complete = none) :
    (settleTask env tasks id task st).2.2 = false := by
  unfold settleTask CompleteTask Task.CompleteTaskByID FailTask
  simp only [hc]
  split
  · rfl
  · split <;> rfl

theorem exportBody_destroy_of_setup (ec : ExportCenter) (env : Env) (tasks : List Task)
    (queues : Queues) (id : Int) (filePath : String)
    (before : Option (String → Option String)) (task : Task) (options : ExportOptions)
    (hget : GetTask env tasks id = .ok task)
    (hcons : env.dbError DbOp.updateStatus = none)
    (hopt : env.unmarshalOptions task.ExportOptions = .ok options)
    (hsetup : (setupShards ec env task before options.Header
      (loopIndices (sheetCount task.CountNum ec.sheetMaxRows))).exit = none)
    (hcrash : (runWorkers ec env task
      (loopIndices0 (sheetCount task.CountNum ec.sheetMaxRows)) queues
      initRunState).crashed = false)
    (hcomplete : env.dbError DbOp.complete = none) :
    (exportBody ec env tasks queues id filePath before).calls.saveAs = [filePath] ∧
    (exportBody ec env tasks queues id filePath before).calls.destroy =
      (loopIndices (sheetCount task.CountNum ec.sheetMaxRows)).map
        (specShardKey ec.queuePrefix task.QueueKey) := by
  have hc : ConsultTask env tasks id = .ok (updateColumns tasks id
      (fun t => { t with Status := TaskStatusConsult, StartTime := some env.now })) := by
    unfold ConsultTask Task.UpdateStatusByID
    simp [hcons]
  unfold exportBody
  simp only [hget, hc, hopt, hsetup, hcrash]
  rcases hs : settleTask env _ id task (runWorkers ec env task
    (loopIndices0 (sheetCount task.CountNum ec.sheetMaxRows)) queues
    initRunState).state with ⟨tasks2, err, flag⟩
  have hflag := settleTask_continues env (updateColumns tasks id
      (fun t => { t with Status := TaskStatusConsult, StartTime := some env.now })) id task
    (runWorkers ec env task
    (loopIndices0 (sheetCount task.CountNum ec.sheetMaxRows)) queues
    initRunState).state hcomplete
  rw [hs] at hflag
  simp only at hflag
  subst hflag
  simp only [Bool.false_eq_true, if_false]
  exact ⟨trivial, destroyQueues_keys ec task _ _⟩

theorem createTask_no_fault (ec : ExportCenter) (env : Env) (tasks : List Task)
    (queues : Queues) (key name description source destination format : String) (count : Int)
    (options : ExportOptions) (marshal : String)
    (hm : env.marshalOptions options = .ok marshal) (hdb : env.dbError DbOp.create = none)
    (hq : ∀ k, env.createQueueError k = none) :
    (CreateTask ec env tasks queues key name description source destination format count
      options).err = none ∧
    (allEmpty queues → allEmpty (CreateTask ec env tasks queues key name description source
      destination format count options).queues) := by
  unfold CreateTask Task.Create
  simp only [hm, hdb]
  have h := createQueues_no_fault ec env key hq
    (loopIndices (sheetCount count ec.sheetMaxRows)) queues
  simp only [h.1]
  exact ⟨trivial, h.2⟩

theorem getTask_created (env : Env) (tasks : List Task) (row : Task)
    (hdb : env.dbError DbOp.find = none) (hrow : row.ID = nextID tasks) :
    GetTask env (tasks ++ [row]) (row.ID : Int) = .ok row := by
  unfold GetTask Task.FindByID
  simp only [hdb]
  have hnone : tasks.find? (fun t => decide ((t.ID : Int) = (row.ID : Int))) = none := by
    rw [List.find?_eq_none]
    intro t ht
    have := nextID_gt tasks t ht
    simp only [decide_eq_true_eq]
    omega
  rw [List.find?_append, hnone]
  simp

/-! ## Claim C1 -/

/-- C1 (counterexample): a task of `2 ^ 31` rows with a per-shard maximum of 1 has `2 ^ 31`
shards.  `CreateTask` succeeds and the export run reaches its end, but the unit of work of
the last shard gets the index `int32(2 ^ 31) = -2 ^ 31`: it pops from "k_sheet-2147483648",
while the key that `CreateTask` returned at that position is "k_sheet2147483648". -/
theorem export_popKeys_ne_created_keys :
    overflowCreate.err = none ∧ overflowRun.calls.saveAs ≠ [] ∧
      overflowCreate.keys[2 ^ 31 - 1]? = some "k_sheet2147483648" ∧
      overflowRun.calls.popKeys[2 ^ 31 - 1]? = some "k_sheet-2147483648" ∧
      overflowRun.calls.popKeys ≠ overflowCreate.keys := by
  have hcount : sheetCount (2 ^ 31) 1 = 2 ^ 31 := by decide
  have hnf := createTask_no_fault (sampleCenter 1) sampleEnv [] [] "k" "name" "description"
    "source" "destination" "xlsx" (2 ^ 31) testExportOptions "options" rfl rfl (fun _ => rfl)
  obtain ⟨row, hid, hkey, hcnt, htasks, hrid, hkeys, _⟩ :=
    createTask_ok (sampleCenter 1) sampleEnv [] [] "k" "name" "description"
      "source" "destination" "xlsx" (2 ^ 31) testExportOptions hnf.1
  unfold overflowRun overflowCreate sampleCreate
  generalize CreateTask (sampleCenter 1) sampleEnv [] [] "k" "name" "description"
      "source" "destination" "xlsx" (2 ^ 31) testExportOptions = r at *
  obtain ⟨herr, hempty0⟩ := hnf
  have hempty : allEmpty r.queues := hempty0 (fun p hp => by simp at hp)
  have hm1 : (sampleCenter 1).sheetMaxRows = 1 := rfl
  have hp1 : (sampleCenter 1).queuePrefix = "" := rfl
  rw [hm1, hp1, hcount] at hkeys
  have hkeys1 : r.keys = (loopIndices (2 ^ 31)).map (specShardKey "" "k") := hkeys
  have hget : GetTask sampleEnv r.tasks (r.id : Int) = .ok row := by
    rw [htasks, hrid]
    exact getTask_created sampleEnv [] row rfl hid
  have hcnt1 : sheetCount row.CountNum (sampleCenter 1).sheetMaxRows = 2 ^ 31 := by
    rw [hcnt]; exact hcount
  have hsave := exportBody_destroy_of_setup (sampleCenter 1) sampleEnv r.tasks
    r.queues (r.id : Int) "./test.xlsx" sampleBefore row
    testExportOptions hget rfl rfl
    (setupShards_no_fault _ _ _ _ _ (fun _ => rfl) (fun _ => rfl) (fun _ => rfl)
      (fun _ => rfl) _)
    (runWorkers_allEmpty _ _ _ _ _ _ hempty) rfl
  have hcalls := exportToExcel_calls (sampleCenter 1) sampleEnv r.tasks
      r.queues (r.id : Int) "./test.xlsx" sampleBefore
  rw [hcalls]
  have hne : (exportBody (sampleCenter 1) sampleEnv r.tasks r.queues (r.id : Int)
      "./test.xlsx" sampleBefore).calls.saveAs ≠ [] := by
    rw [hsave.1]; simp
  obtain ⟨task, hget2, _, hpop, _⟩ := exportBody_reaches_save (sampleCenter 1) sampleEnv
    r.tasks r.queues (r.id : Int) "./test.xlsx" sampleBefore hne
  have htask : task = row := by
    rw [hget] at hget2
    exact (Except.ok.inj hget2).symm
  subst htask
  rw [hcnt1, hkey, hp1] at hpop
  have hpop1 : (exportBody (sampleCenter 1) sampleEnv r.tasks r.queues (r.id : Int)
      "./test.xlsx" sampleBefore).calls.popKeys =
      (loopIndices0 (2 ^ 31)).map (fun i => specShardKey "" "k" (toInt32 (i + 1))) := hpop
  have hk : r.keys[2 ^ 31 - 1]? = some "k_sheet2147483648" := by
    rw [hkeys1]
    unfold loopIndices
    have e : ((2 : Int) ^ 31).toNat = 2147483648 := by decide
    rw [e, List.map_map, List.getElem?_map, List.getElem?_range']
    · decide
    · norm_num
  have hp : (exportBody (sampleCenter 1) sampleEnv r.tasks r.queues (r.id : Int)
      "./test.xlsx" sampleBefore).calls.popKeys[2 ^ 31 - 1]? =
      some "k_sheet-2147483648" := by
    rw [hpop1]
    unfold loopIndices0
    have e : ((2 : Int) ^ 31).toNat = 2147483648 := by decide
    rw [e, List.map_map, List.getElem?_map, List.getElem?_range]
    · decide
    · norm_num
  refine ⟨herr, hne, hk, hp, ?_⟩
  intro heq
  rw [heq, hk] at hp
  exact absurd hp (by decide)

/-- C1 (amended): for every task that `CreateTask` creates without error and whose shard
count is below `2 ^ 31` (the shard index handed to a unit of work is an `int32`), and for
every export run of that task that reaches its save step, on whatever queue contents, the
ordered key list that `CreateTask` returns is the list it called `CreateQueue` on, and
equals the ordered lists of keys that the run passes to the setup callback, that its units
of work pop from, and that it destroys. -/
theorem export_keys_eq_created_keys (ec : ExportCenter) (env : Env) (tasks : List Task)
    (queues : Queues) (key name description source destination format : String) (count : Int)
    (options : ExportOptions) (queues2 : Queues) (filePath : String)
    (before : Option (String → Option String))
    (hcreate : (CreateTask ec env tasks queues key name description source destination format
      count options).err = none)
    (hsmall : sheetCount count ec.sheetMaxRows < 2 ^ 31)
    (hrun : (ExportToExcel ec env
      (CreateTask ec env tasks queues key name description source destination format count
        options).tasks queues2
      ((CreateTask ec env tasks queues key name description source destination format count
        options).id : Int) filePath before).calls.saveAs ≠ []) :
    (CreateTask ec env tasks queues key name description source destination format count
      options).calls.createQueue =
      (CreateTask ec env tasks queues key name description source destination format count
        options).keys ∧
    (ExportToExcel ec env
      (CreateTask ec env tasks queues key name description source destination format count
        options).tasks queues2
      ((CreateTask ec env tasks queues key name description source destination format count
        options).id : Int) filePath before).calls.before =
      (CreateTask ec env tasks queues key name description source destination format count
        options).keys ∧
    (ExportToExcel ec env
      (CreateTask ec env tasks queues key name description source destination format count
        options).tasks queues2
      ((CreateTask ec env tasks queues key name description source destination format count
        options).id : Int) filePath before).calls.popKeys =
      (CreateTask ec env tasks queues key name description source destination format count
        options).keys ∧
    (ExportToExcel ec env
      (CreateTask ec env tasks queues key name description source destination format count
        options).tasks queues2
      ((CreateTask ec env tasks queues key name description source destination format count
        options).id : Int) filePath before).calls.destroy =
      (CreateTask ec env tasks queues key name description source destination format count
        options).keys := by
  obtain ⟨row, hid, hkey, hcnt, htasks, hrid, hkeys, hcalled⟩ :=
    createTask_ok ec env tasks queues key name description source destination format count
      options hcreate
  generalize CreateTask ec env tasks queues key name description source destination format
    count options = r at *
  rw [exportToExcel_calls] at hrun ⊢
  obtain ⟨task, hget, hb, hp, hd⟩ :=
    exportBody_reaches_save ec env r.tasks queues2 (r.id : Int) filePath before hrun
  have htask : task = row := by
    rw [htasks, hrid] at hget
    exact getTask_append_fresh env tasks row task hid hget
  subst htask
  rw [hcnt, hkey] at hb hp hd
  rw [loopIndices0_map_toInt32 _ _ hsmall] at hp
  rw [hkeys]
  exact ⟨hcalled, hb, hp, hd⟩

/-- Witness for C1: the task of 3 rows with a per-shard maximum of 2 and its export run
after three payloads were pushed. -/
theorem export_keys_eq_created_keys_witness :
    twoShardCreate.err = none ∧ sheetCount 3 (sampleCenter 2).sheetMaxRows < 2 ^ 31 ∧
      twoShardRun.calls.saveAs ≠ [] ∧
      twoShardCreate.keys = ["k_sheet1", "k_sheet2"] ∧
      twoShardCreate.calls.createQueue = twoShardCreate.keys ∧
      twoShardRun.calls.before = twoShardCreate.keys ∧
      twoShardRun.calls.popKeys = twoShardCreate.keys ∧
      twoShardRun.calls.destroy = twoShardCreate.keys :=
  ⟨by decide, by decide, by decide, by decide,
    export_keys_eq_created_keys (sampleCenter 2) sampleEnv [] [] "k" "name" "description"
      "source" "destination" "xlsx" 3 testExportOptions
      (PushData (PushData (PushData twoShardCreate.queues "k_sheet1" testPayload) "k_sheet1"
        testPayload) "k_sheet2" testPayload)
      "./test.xlsx" sampleBefore (by decide) (by decide) (by decide)⟩

/-! ## Task table lemmas -/

theorem getTask_updateColumns (env : Env) (tasks : List Task) (id : Int) (t : Task)
    (f : Task → Task) (hf : ∀ x, (f x).ID = x.ID) (h : GetTask env tasks id = .ok t) :
    GetTask env (updateColumns tasks id f) id = .ok (f t) := by
  unfold GetTask Task.FindByID at h ⊢
  cases hdb : env.dbError DbOp.find with
  | some e => simp [hdb] at h
  | none =>
    simp only [hdb] at h ⊢
    have hfind : tasks.find? (fun x => decide ((x.ID : Int) = id)) = some t := by
      cases hq : tasks.find? (fun x => decide ((x.ID : Int) = id)) with
      | none => simp [hq] at h
      | some info =>
        simp only [hq] at h
        rw [Except.ok.inj h]
    have hmap : (updateColumns tasks id f).find? (fun x => decide ((x.ID : Int) = id)) =
        some (f t) := by
      clear h
      induction tasks with
      | nil => simp at hfind
      | cons a rest ih =>
        unfold updateColumns at ih ⊢
        simp only [List.map_cons]
        by_cases ha : (a.ID : Int) = id
        · simp only [List.find?_cons, ha, decide_True] at hfind
          simp only [ha, if_true, List.find?_cons, hf, decide_True]
          rw [Option.some.inj hfind]
        · simp only [List.find?_cons, ha, decide_False] at hfind
          simp only [ha, if_false, List.find?_cons, decide_False]
          exact ih hfind
    simp only [hmap]

/-! ## Claims C5, C7, C8, C10 -/

/-- C5 (code at the failing input): on an engine with `sheetMaxRows = 2` and pool capacity
1, with no fault anywhere, a task with `CountNum = 3` has two shards; one well-formed
payload waits on the first shard and two on the second.  The writer accepts every row
passed to it.  The first unit of work writes its row at row 2 and times out, leaving the
shared row cursor at 2; the second writes one row at row 3, finds `3 > sheetMaxRows` and
ends, one payload unread.  The task ends Failed with `WriteNum = 2`.  A task with
`CountNum = 6` holding two payloads on each of its three shards ends Failed with
`WriteNum = 2` as well: the first unit of work ends on the row limit, which resets the
cursor to 0, and the rows of the second and third unit are all addressed to row 1, which
the writer refuses. -/
theorem export_strands_queued_rows :
    NewClient sampleEnv (sampleOptions 2) = .ok (sampleCenter 2) ∧
      (sampleCenter 2).poolMax = 1 ∧
      sampleUnmarshal testPayload = .ok (JsonValue.array ["\"get1\"", "\"get1\"", "\"get1\""]) ∧
      twoShardCreate.keys = ["k_sheet1", "k_sheet2"] ∧
      strandedRun.exit = Exit.returned none ∧
      strandedRun.calls.setRowCall = strandedRun.calls.setRow ∧
      strandedRun.calls.setRow.map (fun r => (r.1, r.2.1)) = [(1, 2), (2, 3)] ∧
      strandedRun.count = 2 ∧ strandedRun.errRowCount = 0 ∧
      strandedRun.tasks.map (fun t => (t.CountNum, t.Status, t.WriteNum, t.ErrNum)) =
        [(3, TaskStatusFail, 2, 0)] ∧
      fullShardsCreate.keys = ["k_sheet1", "k_sheet2", "k_sheet3"] ∧
      fullShardsRun.exit = Exit.returned none ∧
      fullShardsRun.calls.setRowCall.map (fun r => (r.1, r.2.1)) =
        [(1, 2), (1, 3), (2, 1), (2, 1), (3, 1), (3, 1)] ∧
      fullShardsRun.calls.setRow.map (fun r => (r.1, r.2.1)) = [(1, 2), (1, 3)] ∧
      fullShardsRun.count = 2 ∧ fullShardsRun.errRowCount = 4 ∧
      fullShardsRun.tasks.map (fun t => (t.CountNum, t.Status, t.WriteNum, t.ErrNum)) =
        [(6, TaskStatusFail, 2, 4)] := by
  refine ⟨newClient_sampleOptions 2 (by decide), rfl, rfl, by decide, by decide, by decide,
    by decide, by decide, by decide, by decide, by decide, by decide, by decide, by decide,
    by decide, by decide, by decide⟩

theorem settleTask_completed (env : Env) (tasks : List Task) (id : Int) (task t0 : Task)
    (st : RunState) (hfind : GetTask env tasks id = .ok t0)
    (hc : env.dbError DbOp.complete = none) (hle : task.CountNum ≤ st.count) :
    ∃ t, GetTask env (settleTask env tasks id task st).1 id = .ok t ∧
      t.Status = TaskStatusCompleted ∧ t.ProgressRate = 100 ∧ t.WriteNum = st.count ∧
      t.ErrNum = t0.ErrNum := by
  have hge : st.count ≥ task.CountNum := hle
  unfold settleTask CompleteTask Task.CompleteTaskByID
  simp only [hge, if_true, hc]
  exact ⟨_, getTask_updateColumns env tasks id t0 _ (fun _ => rfl) hfind, rfl, rfl, rfl, rfl⟩

theorem settleTask_failed (env : Env) (tasks : List Task) (id : Int) (task t0 : Task)
    (st : RunState) (hfind : GetTask env tasks id = .ok t0)
    (hf : env.dbError DbOp.fail = none) (hlt : st.count < task.CountNum) :
    ∃ t, GetTask env (settleTask env tasks id task st).1 id = .ok t ∧
      t.Status = TaskStatusFail ∧ t.ProgressRate = 100 ∧ t.ErrNum = st.errRowCount ∧
      t.WriteNum = st.count := by
  have hge : ¬ (st.count ≥ task.CountNum) := not_le.2 hlt
  unfold settleTask FailTask Task.FailTaskByID
  simp only [hge, if_false, hf]
  exact ⟨_, getTask_updateColumns env tasks id t0 _ (fun _ => rfl) hfind, rfl, rfl, rfl, rfl⟩

theorem saveAndPublish_sameOutcome (ec : ExportCenter) (env : Env) (tasks : List Task)
    (id : Int) (filePath : String) (err : Option String) (t : Task)
    (h : GetTask env tasks id = .ok t) :
    ∃ t1, GetTask env (saveAndPublish ec env tasks id filePath err).1 id = .ok t1 ∧
      sameOutcome t t1 := by
  have hsame : sameOutcome t t := ⟨rfl, rfl, rfl, rfl⟩
  unfold saveAndPublish UpdateTaskDownloadUrl Task.UpdateDownloadUrlByID
  cases hs : env.saveAsError filePath with
  | some e => exact ⟨t, h, hsame⟩
  | none =>
    simp only
    cases hd : env.dbError DbOp.downloadUrl with
    | some e =>
      simp only
      cases hu : ec.isUploadCloud with
      | false => exact ⟨t, h, hsame⟩
      | true =>
        simp only [if_true]
        cases hup : ec.upload filePath with
        | error e => exact ⟨t, h, hsame⟩
        | ok url => exact ⟨t, h, hsame⟩
    | none =>
      simp only
      cases hu : ec.isUploadCloud with
      | false =>
        exact ⟨_, getTask_updateColumns env tasks id t _ (fun _ => rfl) h,
          rfl, rfl, rfl, rfl⟩
      | true =>
        simp only [if_true]
        cases hup : ec.upload filePath with
        | error e => exact ⟨t, h, hsame⟩
        | ok url =>
          simp only
          cases hr : env.removeError filePath with
          | some e =>
            exact ⟨_, getTask_updateColumns env tasks id t _ (fun _ => rfl) h,
              rfl, rfl, rfl, rfl⟩
          | none =>
            exact ⟨_, getTask_updateColumns env tasks id t _ (fun _ => rfl) h,
              rfl, rfl, rfl, rfl⟩

theorem exportToExcel_completed (ec : ExportCenter) (env : Env) (tasks : List Task)
    (queues : Queues) (id : Int) (filePath : String)
    (before : Option (String → Option String)) (task : Task) (options : ExportOptions)
    (hget : GetTask env tasks id = .ok task)
    (hcons : env.dbError DbOp.updateStatus = none)
    (hopt : env.unmarshalOptions task.ExportOptions = .ok options)
    (hsetup : (setupShards ec env task before options.Header
      (loopIndices (sheetCount task.CountNum ec.sheetMaxRows))).exit = none)
    (hcrash : (runWorkers ec env task
      (loopIndices0 (sheetCount task.CountNum ec.sheetMaxRows)) queues
      initRunState).crashed = false)
    (hcomplete : env.dbError DbOp.complete = none)
    (hle : task.CountNum ≤ (runWorkers ec env task
      (loopIndices0 (sheetCount task.CountNum ec.sheetMaxRows)) queues
      initRunState).state.count) :
    (ExportToExcel ec env tasks queues id filePath before).count =
      (runWorkers ec env task (loopIndices0 (sheetCount task.CountNum ec.sheetMaxRows)) queues
        initRunState).state.count ∧
    (ExportToExcel ec env tasks queues id filePath before).errRowCount =
      (runWorkers ec env task (loopIndices0 (sheetCount task.CountNum ec.sheetMaxRows)) queues
        initRunState).state.errRowCount ∧
    ∃ t1, GetTask env (ExportToExcel ec env tasks queues id filePath before).tasks id = .ok t1 ∧
      t1.Status = TaskStatusCompleted ∧ t1.ProgressRate = 100 ∧
      t1.WriteNum = (runWorkers ec env task
        (loopIndices0 (sheetCount task.CountNum ec.sheetMaxRows)) queues
        initRunState).state.count ∧
      t1.ErrNum = task.ErrNum := by
  have hc : ConsultTask env tasks id = .ok (updateColumns tasks id
      (fun t => { t with Status := TaskStatusConsult, StartTime := some env.now })) := by
    unfold ConsultTask Task.UpdateStatusByID
    simp [hcons]
  have hget1 := getTask_updateColumns env tasks id task
    (fun t => { t with Status := TaskStatusConsult, StartTime := some env.now })
    (fun _ => rfl) hget
  generalize updateColumns tasks id
    (fun t => { t with Status := TaskStatusConsult, StartTime := some env.now }) = tasks1 at *
  generalize hw : runWorkers ec env task
    (loopIndices0 (sheetCount task.CountNum ec.sheetMaxRows)) queues initRunState = w at *
  obtain ⟨t2, hget2, hs2, hp2, hw2, he2⟩ :=
    settleTask_completed env tasks1 id task _ w.state hget1 hcomplete hle
  have hflag := settleTask_continues env tasks1 id task w.state hcomplete
  rcases hs : settleTask env tasks1 id task w.state with ⟨tasks2, err, flag⟩
  rw [hs] at hflag hget2
  simp only at hflag hget2
  subst hflag
  obtain ⟨t3, hget3, h31, h32, h33, h34⟩ :=
    saveAndPublish_sameOutcome ec env tasks2 id filePath err t2 hget2
  have hbody : exportBody ec env tasks queues id filePath before =
      ⟨Exit.returned (saveAndPublish ec env tasks2 id filePath err).2,
        (saveAndPublish ec env tasks2 id filePath err).1,
        (destroyQueues ec task (loopIndices (sheetCount task.CountNum ec.sheetMaxRows))
          w.queues).1,
        { before := (setupShards ec env task before options.Header
            (loopIndices (sheetCount task.CountNum ec.sheetMaxRows))).before,
          setHeader := (setupShards ec env task before options.Header
            (loopIndices (sheetCount task.CountNum ec.sheetMaxRows))).setHeader,
          popKeys := w.popKeys, setRowCall := w.state.setRowCall,
          setRow := w.state.setRow, flush := w.state.flush,
          destroy := (destroyQueues ec task
            (loopIndices (sheetCount task.CountNum ec.sheetMaxRows)) w.queues).2,
          saveAs := [filePath] },
        w.state.count, w.state.rowCount, w.state.errRowCount⟩ := by
    unfold exportBody
    simp only [hget, hc, hopt, hsetup, hw, hcrash, hs, Bool.false_eq_true, if_false]
  unfold ExportToExcel
  simp only [hbody]
  unfold UpdateTaskErrLogUrl Task.UpdateErrLogUrlByID
  cases hl : env.dbError DbOp.errLogUrl with
  | some e =>
    simp only
    exact ⟨trivial, trivial, t3, hget3, by rw [h31, hs2], by rw [h32, hp2], by rw [h33, hw2],
      by rw [h34, he2]⟩
  | none =>
    simp only
    refine ⟨trivial, trivial, _,
      getTask_updateColumns env _ id t3 _ (fun _ => rfl) hget3, ?_, ?_, ?_, ?_⟩
    · show t3.Status = _
      rw [h31, hs2]
    · show t3.ProgressRate = _
      rw [h32, hp2]
    · show t3.WriteNum = _
      rw [h33, hw2]
    · show t3.ErrNum = _
      rw [h34, he2]

/-- C7: once the units of work have stopped with write counter `st.count` and error counter
`st.errRowCount`, the decision on a stored task, when the store takes the update, sets the
record to Completed with progress 100 and `WriteNum = st.count` if
`st.count >= task.CountNum`, and otherwise to Failed with progress 100,
`ErrNum = st.errRowCount` and `WriteNum = st.count`; a pass of a unit of work that times out
leaves every counter as it is, so a timeout bears on the decision only through the write
counter. -/
theorem settleTask_outcome (env : Env) (tasks : List Task) (id : Int) (task t0 : Task)
    (st : RunState) (hfind : GetTask env tasks id = .ok t0)
    (hc : env.dbError DbOp.complete = none) (hf : env.dbError DbOp.fail = none) :
    (task.CountNum ≤ st.count →
      ∃ t, GetTask env (settleTask env tasks id task st).1 id = .ok t ∧
        t.Status = TaskStatusCompleted ∧ t.ProgressRate = 100 ∧ t.WriteNum = st.count) ∧
    (st.count < task.CountNum →
      ∃ t, GetTask env (settleTask env tasks id task st).1 id = .ok t ∧
        t.Status = TaskStatusFail ∧ t.ProgressRate = 100 ∧ t.ErrNum = st.errRowCount ∧
        t.WriteNum = st.count) ∧
    (∀ (ec : ExportCenter) (currentSheetIndex : Int),
      workerStep ec env task currentSheetIndex none st = (st, Flow.done)) := by
  refine ⟨?_, ?_, ?_⟩
  · intro hle
    obtain ⟨t, h1, h2, h3, h4, _⟩ := settleTask_completed env tasks id task t0 st hfind hc hle
    exact ⟨t, h1, h2, h3, h4⟩
  · intro hlt
    exact settleTask_failed env tasks id task t0 st hfind hf hlt
  · intro ec currentSheetIndex
    rfl

/-- Witness for C7: a stored task with `CountNum = 3`, decided with write counter 2 and
error counter 1. -/
theorem settleTask_outcome_witness :
    GetTask sampleEnv [sampleTask 3 TaskStatusConsult] 1 = .ok (sampleTask 3 TaskStatusConsult) ∧
      sampleEnv.dbError DbOp.complete = none ∧ sampleEnv.dbError DbOp.fail = none ∧
      ((2 : Int) < (sampleTask 3 TaskStatusConsult).CountNum →
        ∃ t, GetTask sampleEnv (settleTask sampleEnv [sampleTask 3 TaskStatusConsult] 1
            (sampleTask 3 TaskStatusConsult)
            { initRunState with count := 2, errRowCount := 1 }).1 1 = .ok t ∧
          t.Status = TaskStatusFail ∧ t.ProgressRate = 100 ∧ t.ErrNum = 1 ∧ t.WriteNum = 2) :=
  ⟨rfl, rfl, rfl,
    (settleTask_outcome sampleEnv [sampleTask 3 TaskStatusConsult] 1
      (sampleTask 3 TaskStatusConsult) (sampleTask 3 TaskStatusConsult)
      { initRunState with count := 2, errRowCount := 1 } rfl rfl rfl).2.1⟩

/-- C8 (counterexample): the payload `5` is valid JSON that is not an array.  One pass of a
unit of work on it leaves the error counter at 0, raises the write counter and the row
cursor and writes a row without values.  On the payload `null` the pass panics. -/
theorem workerStep_counts_non_array_as_written :
    sampleEnv.unmarshal "5" = .ok (JsonValue.number "5") ∧
      workerStep (sampleCenter 500000) sampleEnv (sampleTask 3 TaskStatusConsult) 1 (some "5")
        initRunState =
        ({ count := 1, rowCount := 2, errRowCount := 0, err := none,
           setRowCall := [(1, 2, [])], setRow := [(1, 2, [])], flush := [] }, Flow.next) ∧
      sampleEnv.unmarshal "null" = .ok JsonValue.null ∧
      (workerStep (sampleCenter 500000) sampleEnv (sampleTask 3 TaskStatusConsult) 1
        (some "null") initRunState).2 = Flow.crash := by
  refine ⟨rfl, by decide, rfl, by decide⟩

/-- C8 (amended): for every payload that is the empty string or that `json.Unmarshal`
rejects, one pass of a unit of work on it raises the error counter by exactly 1, leaves the
write counter and the row cursor unchanged, writes and flushes nothing, and goes on with
the next pop. -/
theorem workerStep_bad_payload (ec : ExportCenter) (env : Env) (task : Task)
    (currentSheetIndex : Int) (data : String) (st : RunState)
    (h : data = "" ∨ ∃ e, env.unmarshal data = .error e) :
    (workerStep ec env task currentSheetIndex (some data) st).2 = Flow.next ∧
    (workerStep ec env task currentSheetIndex (some data) st).1.errRowCount =
      st.errRowCount + 1 ∧
    (workerStep ec env task currentSheetIndex (some data) st).1.count = st.count ∧
    (workerStep ec env task currentSheetIndex (some data) st).1.rowCount = st.rowCount ∧
    (workerStep ec env task currentSheetIndex (some data) st).1.setRow = st.setRow ∧
    (workerStep ec env task currentSheetIndex (some data) st).1.flush = st.flush := by
  unfold workerStep
  by_cases hd : data = ""
  · simp [hd]
  · rcases h with h | ⟨e, he⟩
    · exact absurd h hd
    · simp [hd, he]

/-- Witness for C8: a payload that is not JSON. -/
theorem workerStep_bad_payload_witness :
    (∃ e, sampleEnv.unmarshal "not json" = .error e) ∧
      (workerStep (sampleCenter 500000) sampleEnv (sampleTask 3 TaskStatusConsult) 1
        (some "not json") initRunState).2 = Flow.next ∧
      (workerStep (sampleCenter 500000) sampleEnv (sampleTask 3 TaskStatusConsult) 1
        (some "not json") initRunState).1.errRowCount = initRunState.errRowCount + 1 :=
  ⟨⟨_, rfl⟩,
    (workerStep_bad_payload (sampleCenter 500000) sampleEnv (sampleTask 3 TaskStatusConsult) 1
      "not json" initRunState (Or.inr ⟨_, rfl⟩)).1,
    (workerStep_bad_payload (sampleCenter 500000) sampleEnv (sampleTask 3 TaskStatusConsult) 1
      "not json" initRunState (Or.inr ⟨_, rfl⟩)).2.1⟩

/-- C10 (counterexample): `ConsultTask` on a stored Completed task sets its status to
Consulting; and a second `ExportToExcel` on the task that `oneRowRun` left Completed
finds its queues gone, writes nothing and leaves the task Failed. -/
theorem export_overwrites_terminal_status :
    (ConsultTask sampleEnv [sampleTask 3 TaskStatusCompleted] 1).toOption.map
        (fun tasks => tasks.map (fun t => t.Status)) = some [TaskStatusConsult] ∧
      oneRowRun.tasks.map (fun t => t.Status) = [TaskStatusCompleted] ∧
      secondRun.tasks.map (fun t => t.Status) = [TaskStatusFail] := by
  refine ⟨by decide, by decide, by decide⟩

/-- C10 (amended): for every stored task, whatever its status (Completed and Failed
included), `ConsultTask`, which `ExportToExcel` calls before anything else, sets the status
to Consulting when the store takes the update; the operations that leave the stored status
as it is are those that do not write the status column, `UpdateTaskDownloadUrl` and
`UpdateTaskErrLogUrl`. -/
theorem status_after_engine_operations (env : Env) (tasks : List Task) (id : Int) (t : Task)
    (url : String) (hget : GetTask env tasks id = .ok t)
    (h1 : env.dbError DbOp.updateStatus = none) (h2 : env.dbError DbOp.downloadUrl = none)
    (h3 : env.dbError DbOp.errLogUrl = none) :
    (∃ tasks1 t1, ConsultTask env tasks id = .ok tasks1 ∧ GetTask env tasks1 id = .ok t1 ∧
      t1.Status = TaskStatusConsult) ∧
    (∃ tasks1 t1, UpdateTaskDownloadUrl env tasks id url = .ok tasks1 ∧
      GetTask env tasks1 id = .ok t1 ∧ t1.Status = t.Status) ∧
    (∃ tasks1 t1, UpdateTaskErrLogUrl env tasks id url = .ok tasks1 ∧
      GetTask env tasks1 id = .ok t1 ∧ t1.Status = t.Status) := by
  refine ⟨?_, ?_, ?_⟩
  · unfold ConsultTask Task.UpdateStatusByID
    simp only [h1, if_true]
    exact ⟨_, _, rfl, getTask_updateColumns env tasks id t _ (fun _ => rfl) hget, rfl⟩
  · unfold UpdateTaskDownloadUrl Task.UpdateDownloadUrlByID
    simp only [h2]
    exact ⟨_, _, rfl, getTask_updateColumns env tasks id t _ (fun _ => rfl) hget, rfl⟩
  · unfold UpdateTaskErrLogUrl Task.UpdateErrLogUrlByID
    simp only [h3]
    exact ⟨_, _, rfl, getTask_updateColumns env tasks id t _ (fun _ => rfl) hget, rfl⟩

/-- Witness for C10: a stored Completed task. -/
theorem status_after_engine_operations_witness :
    GetTask sampleEnv [sampleTask 3 TaskStatusCompleted] 1 =
        .ok (sampleTask 3 TaskStatusCompleted) ∧
      sampleEnv.dbError DbOp.updateStatus = none ∧
      ∃ tasks1 t1, ConsultTask sampleEnv [sampleTask 3 TaskStatusCompleted] 1 = .ok tasks1 ∧
        GetTask sampleEnv tasks1 1 = .ok t1 ∧ t1.Status = TaskStatusConsult :=
  ⟨rfl, rfl,
    (status_after_engine_operations sampleEnv [sampleTask 3 TaskStatusCompleted] 1
      (sampleTask 3 TaskStatusCompleted) "./test.xlsx" rfl rfl rfl rfl).1⟩

/-! ## Claim C6 -/

theorem sheetCount_one (m : Int) (hm0 : 0 < m) (hm : m < 2 ^ 63) : sheetCount 1 m = 1 := by
  rw [sheetCount_eq_ceil 1 m (by norm_num) (by norm_num) hm0 hm, Int.ceil_eq_iff]
  have hq : (0 : ℚ) < (m : ℚ) := by exact_mod_cast hm0
  have h1 : (1 : ℚ) ≤ (m : ℚ) := by exact_mod_cast hm0
  constructor
  · simp only [Int.cast_one, sub_self]
    positivity
  · simp only [Int.cast_one]
    rw [div_le_iff₀ hq]
    linarith

theorem runWorkers_empty_then_row (ec : ExportCenter) (env : Env) (task : Task)
    (queues : Queues) (payload : String) (values : List String) (cell : String)
    (hcount : task.CountNum = 1)
    (hq : Queue.Pending queues (specShardKey ec.queuePrefix task.QueueKey 1) = ["", payload])
    (hne : payload ≠ "")
    (hp : env.unmarshal payload = .ok (JsonValue.array values))
    (hcell : env.cellName 2 = .ok cell)
    (hset : env.setRowError 1 cell values = none) :
    (runWorkers ec env task [0] queues initRunState).crashed = false ∧
    (runWorkers ec env task [0] queues initRunState).state.count = 1 ∧
    (runWorkers ec env task [0] queues initRunState).state.errRowCount = 1 := by
  have h32 : toInt32 (0 + 1) = 1 := by decide
  have hk : (if ec.queuePrefix ≠ "" then
      ec.queuePrefix ++ "_" ++ task.QueueKey ++ "_sheet" ++ fmtInt 1
      else task.QueueKey ++ "_sheet" ++ fmtInt 1) =
      specShardKey ec.queuePrefix task.QueueKey 1 := rfl
  have h2 : (1 : Int) + 1 = 2 := by norm_num
  simp only [runWorkers, h32, hk, hq, workerLoop, workerStep, initRunState, if_true, hne,
    if_false, hp, h2, hcell, interfaceToSlice, hset, hcount]
  by_cases hmax : (2 : Int) > ec.sheetMaxRows
  · simp [hmax]
  · simp [hmax]

/-- C6 (counterexample): a task with `CountNum = 1` whose single shard holds the empty
string and then a well-formed payload.  The run counts one error and writes one row; the
task record ends Completed with `WriteNum = 1`, but its `ErrNum` is 0, not at least 1. -/
theorem export_completed_keeps_errNum_zero :
    Queue.Pending (PushData (PushData oneRowCreate.queues "k_sheet1" "") "k_sheet1" testPayload)
        "k_sheet1" = ["", testPayload] ∧
      emptyThenRowRun.exit = Exit.returned none ∧ emptyThenRowRun.errRowCount = 1 ∧
      emptyThenRowRun.tasks.map (fun t => (t.CountNum, t.Status, t.WriteNum, t.ErrNum)) =
        [(1, TaskStatusCompleted, 1, 0)] ∧
      ¬ (∀ t ∈ emptyThenRowRun.tasks,
          t.Status = TaskStatusCompleted ∧ t.WriteNum = 1 ∧ 1 ≤ t.ErrNum) := by
  refine ⟨by decide, by decide, by decide, by decide, by decide⟩

/-- C6 (amended): for a stored task with `CountNum = 1` on an engine with a per-shard
maximum `0 < m < 2 ^ 63`, whose single shard queue delivers one empty-string payload and
then one well-formed payload, with the setup of the shard, the writer and the store
accepting every call of the run up to the decision: the run counts exactly one error, and
the task record ends in status Completed with progress 100 and `WriteNum = 1`; its `ErrNum`
keeps the value stored before the run (0 for a task made by `CreateTask`), because the
completion update records the write count only. -/
theorem export_empty_then_row (ec : ExportCenter) (env : Env) (tasks : List Task)
    (queues : Queues) (id : Int) (filePath : String) (callback : String → Option String)
    (task : Task) (options : ExportOptions) (payload : String) (values : List String)
    (cell : String)
    (hget : GetTask env tasks id = .ok task) (hcount : task.CountNum = 1)
    (hm0 : 0 < ec.sheetMaxRows) (hm : ec.sheetMaxRows < 2 ^ 63)
    (hcons : env.dbError DbOp.updateStatus = none)
    (hcomplete : env.dbError DbOp.complete = none)
    (hopt : env.unmarshalOptions task.ExportOptions = .ok options)
    (hcb : callback (specShardKey ec.queuePrefix task.QueueKey 1) = none)
    (hsw : env.newStreamWriterError 1 = none) (hh : env.setHeaderError 1 = none)
    (hq : Queue.Pending queues (specShardKey ec.queuePrefix task.QueueKey 1) = ["", payload])
    (hne : payload ≠ "")
    (hp : env.unmarshal payload = .ok (JsonValue.array values))
    (hcell : env.cellName 2 = .ok cell)
    (hset : env.setRowError 1 cell values = none) :
    (ExportToExcel ec env tasks queues id filePath (some callback)).errRowCount = 1 ∧
    ∃ t1, GetTask env (ExportToExcel ec env tasks queues id filePath (some callback)).tasks id =
        .ok t1 ∧
      t1.Status = TaskStatusCompleted ∧ t1.ProgressRate = 100 ∧ t1.WriteNum = 1 ∧
      t1.ErrNum = task.ErrNum := by
  have hsc : sheetCount task.CountNum ec.sheetMaxRows = 1 := by
    rw [hcount]; exact sheetCount_one _ hm0 hm
  have hl1 : loopIndices 1 = [1] := by decide
  have hl0 : loopIndices0 1 = [0] := by decide
  obtain ⟨hw1, hw2, hw3⟩ := runWorkers_empty_then_row ec env task queues payload values cell
    hcount hq hne hp hcell hset
  have hk : (if ec.queuePrefix ≠ "" then
      ec.queuePrefix ++ "_" ++ task.QueueKey ++ "_sheet" ++ fmtInt 1
      else task.QueueKey ++ "_sheet" ++ fmtInt 1) =
      specShardKey ec.queuePrefix task.QueueKey 1 := rfl
  have hsetup : (setupShards ec env task (some callback) options.Header
      (loopIndices (sheetCount task.CountNum ec.sheetMaxRows))).exit = none := by
    rw [hsc, hl1]
    simp only [setupShards, hk, hcb, gt_iff_lt, lt_self_iff_false, if_false, hsw, hh]
  obtain ⟨h1, h2, t1, hg, hs, hpr, hwn, hen⟩ := exportToExcel_completed ec env tasks queues id
    filePath (some callback) task options hget hcons hopt hsetup
    (by rw [hsc, hl0]; exact hw1) hcomplete (by rw [hsc, hl0, hw2, hcount])
  rw [hsc, hl0] at h2 hwn
  exact ⟨by rw [h2, hw3], t1, hg, hs, hpr, by rw [hwn, hw2], hen⟩

/-- Witness for C6: the task of `emptyThenRowRun`. -/
theorem export_empty_then_row_witness :
    GetTask sampleEnv oneRowCreate.tasks 1 = .ok (sampleTask 1 TaskStatusWait) ∧
      Queue.Pending (PushData (PushData oneRowCreate.queues "k_sheet1" "") "k_sheet1"
        testPayload) "k_sheet1" = ["", testPayload] ∧
      emptyThenRowRun.errRowCount = 1 ∧
      ∃ t1, GetTask sampleEnv emptyThenRowRun.tasks 1 = .ok t1 ∧
        t1.Status = TaskStatusCompleted ∧ t1.ProgressRate = 100 ∧ t1.WriteNum = 1 ∧
        t1.ErrNum = (sampleTask 1 TaskStatusWait).ErrNum :=
  ⟨rfl, by decide,
    export_empty_then_row (sampleCenter 500000) sampleEnv oneRowCreate.tasks
      (PushData (PushData oneRowCreate.queues "k_sheet1" "") "k_sheet1" testPayload) 1
      "./test.xlsx" (fun _ => none) (sampleTask 1 TaskStatusWait) testExportOptions testPayload
      ["\"get1\"", "\"get1\"", "\"get1\""] "A2" rfl rfl (by decide) (by decide) rfl rfl rfl rfl
      rfl rfl (by decide) (by decide) rfl rfl rfl⟩

/-! ## Claim C9 -/

theorem exportBody_setup_abort (ec : ExportCenter) (env : Env) (tasks : List Task)
    (queues : Queues) (id : Int) (filePath : String)
    (before : Option (String → Option String)) (task : Task) (options : ExportOptions)
    (exit : Exit)
    (hget : GetTask env tasks id = .ok task)
    (hcons : env.dbError DbOp.updateStatus = none)
    (hopt : env.unmarshalOptions task.ExportOptions = .ok options)
    (hsetup : (setupShards ec env task before options.Header
      (loopIndices (sheetCount task.CountNum ec.sheetMaxRows))).exit = some exit) :
    (exportBody ec env tasks queues id filePath before).exit = exit ∧
    (exportBody ec env tasks queues id filePath before).calls.destroy = [] := by
  have hc : ConsultTask env tasks id = .ok (updateColumns tasks id
      (fun t => { t with Status := TaskStatusConsult, StartTime := some env.now })) := by
    unfold ConsultTask Task.UpdateStatusByID
    simp [hcons]
  unfold exportBody
  simp only [hget, hc, hopt, hsetup]
  exact ⟨trivial, trivial⟩

theorem exportToExcel_exit (ec : ExportCenter) (env : Env) (tasks : List Task)
    (queues : Queues) (id : Int) (filePath : String)
    (before : Option (String → Option String)) :
    (ExportToExcel ec env tasks queues id filePath before).exit =
      (exportBody ec env tasks queues id filePath before).exit := by
  unfold ExportToExcel
  simp only
  split
  · rfl
  · split <;> rfl

/-- C9 (counterexample): the export run of a task with the two shard keys "k_sheet1" and
"k_sheet2" whose setup callback fails returns the error of the callback after its first
call, and `Destroy` has been called on no key. -/
theorem export_setup_error_skips_destroy :
    twoShardCreate.keys = ["k_sheet1", "k_sheet2"] ∧
      abortedRun.exit = Exit.returned (some "consume failed") ∧
      abortedRun.calls.before = ["k_sheet1"] ∧ abortedRun.calls.destroy = [] ∧
      ¬ (∀ k ∈ twoShardCreate.keys, k ∈ abortedRun.calls.destroy) := by
  refine ⟨by decide, by decide, by decide, by decide, by decide⟩

/-- C9 (amended): for every invocation of `ExportToExcel` on an existing task that the
store lets enter Consulting and whose options decode: if the setup of every shard succeeds,
no unit of work panics and the store takes the Completed update, then `Destroy` has been
called, in index order, on every one of the task's shard keys by the time `ExportToExcel`
returns, whether the task ends Completed or Failed and whatever saving and publishing the
file return; if the setup callback or the writer setup of a shard ends the run, the call
ends the way the setup did, with no `Destroy` call. -/
theorem export_destroys_after_decision (ec : ExportCenter) (env : Env) (tasks : List Task)
    (queues : Queues) (id : Int) (filePath : String)
    (before : Option (String → Option String)) (task : Task) (options : ExportOptions)
    (hget : GetTask env tasks id = .ok task)
    (hcons : env.dbError DbOp.updateStatus = none)
    (hopt : env.unmarshalOptions task.ExportOptions = .ok options) :
    ((setupShards ec env task before options.Header
        (loopIndices (sheetCount task.CountNum ec.sheetMaxRows))).exit = none →
      (runWorkers ec env task (loopIndices0 (sheetCount task.CountNum ec.sheetMaxRows)) queues
        initRunState).crashed = false →
      env.dbError DbOp.complete = none →
      (ExportToExcel ec env tasks queues id filePath before).calls.destroy =
        (loopIndices (sheetCount task.CountNum ec.sheetMaxRows)).map
          (specShardKey ec.queuePrefix task.QueueKey)) ∧
    (∀ exit, (setupShards ec env task before options.Header
        (loopIndices (sheetCount task.CountNum ec.sheetMaxRows))).exit = some exit →
      (ExportToExcel ec env tasks queues id filePath before).exit = exit ∧
      (ExportToExcel ec env tasks queues id filePath before).calls.destroy = []) := by
  constructor
  · intro hsetup hcrash hcomplete
    rw [exportToExcel_calls]
    exact (exportBody_destroy_of_setup ec env tasks queues id filePath before task options
      hget hcons hopt hsetup hcrash hcomplete).2
  · intro exit hsetup
    rw [exportToExcel_calls, exportToExcel_exit]
    exact exportBody_setup_abort ec env tasks queues id filePath before task options exit
      hget hcons hopt hsetup

/-- Witness for C9: the run `twoShardRun`, which ends Failed, destroys both keys. -/
theorem export_destroys_after_decision_witness :
    GetTask sampleEnv twoShardCreate.tasks 1 = .ok (sampleTask 3 TaskStatusWait) ∧
      sampleEnv.dbError DbOp.updateStatus = none ∧
      sampleEnv.unmarshalOptions (sampleTask 3 TaskStatusWait).ExportOptions =
        .ok testExportOptions ∧
      twoShardRun.calls.destroy = ["k_sheet1", "k_sheet2"] :=
  ⟨rfl, rfl, rfl,
    ((export_destroys_after_decision (sampleCenter 2) sampleEnv twoShardCreate.tasks
      (PushData (PushData (PushData twoShardCreate.queues "k_sheet1" testPayload) "k_sheet1"
        testPayload) "k_sheet2" testPayload) 1 "./test.xlsx" sampleBefore
      (sampleTask 3 TaskStatusWait) testExportOptions rfl rfl rfl).1
      (by decide) (by decide) rfl).trans (by decide)⟩

/-! ## Claims C11, C12, C13, C14 -/

/-- C11 (code at the failing input): `NewClient` refuses a `SheetMaxRows` of 0, with an
error text that asks for a value greater than 0, but for `SheetMaxRows = -1` it returns an
engine with `sheetMaxRows = -1`.  On that engine `CreateTask` for 3 rows computes a shard
count of -3, creates no queue and returns no key without an error, and the export run of
the task has no unit of work and ends with the task Failed. -/
theorem newClient_accepts_negative_sheetMaxRows :
    NewClient sampleEnv (sampleOptions 0) =
        .error "SheetMaxRows数据表最大行数必须配置大于0" ∧
      (sampleOptions (-1)).SheetMaxRows = -1 ∧
      NewClient sampleEnv (sampleOptions (-1)) = .ok (sampleCenter (-1)) ∧
      (sampleCenter (-1)).sheetMaxRows = -1 ∧
      sheetCount 3 (-1) = -3 ∧
      negativeCreate.err = none ∧ negativeCreate.keys = [] ∧
      negativeCreate.calls.createQueue = [] ∧
      negativeRun.exit = Exit.returned none ∧ negativeRun.calls.popKeys = [] ∧
      negativeRun.tasks.map (fun t => (t.CountNum, t.Status, t.WriteNum)) =
        [(3, TaskStatusFail, 0)] := by
  refine ⟨rfl, rfl, newClient_sampleOptions (-1) (by decide), rfl, by decide, by decide,
    by decide, by decide, by decide, by decide, by decide⟩

/-- C12 (code at the failing input): the call sequence of `TestRedisTaskExport`.  The task
has the one shard key "test_redis_sheet1"; `ExportToExcel` with a nil setup callback panics
at the call of the callback for the first shard: no key reaches a callback, no unit of work
starts, the payload stays on its queue and the task stays in status Consulting.  The setup
loop panics in the same way for every task with at least one shard. -/
theorem export_nil_callback_panics :
    NewClient sampleEnv testOptions = .ok testCenter ∧
      redisTestCreate.keys = ["test_redis_sheet1"] ∧
      redisTestRun.exit = Exit.panic "runtime error: invalid memory address or nil pointer dereference" ∧
      redisTestRun.calls.before = [] ∧ redisTestRun.calls.popKeys = [] ∧
      redisTestRun.queues = [("test_redis_sheet1", [testPayload])] ∧
      redisTestRun.tasks.map (fun t => t.Status) = [TaskStatusConsult] ∧
      (∀ (ec : ExportCenter) (env : Env) (task : Task) (headers : List String) (i : Int)
        (rest : List Int),
        (setupShards ec env task none headers (i :: rest)).exit =
          some (Exit.panic "runtime error: invalid memory address or nil pointer dereference")) := by
  refine ⟨rfl, by decide, by decide, by decide, by decide, by decide, by decide, ?_⟩
  intro ec env task headers i rest
  rfl

/-- C13 (code at the failing input): a task with `CountNum = 1` on an engine with a
per-shard maximum of 500000.  The pass of the unit of work that writes the only row raises
the write counter to 1, which has reached `CountNum`, but it compares the value the counter
had before the pass: it does not flush and goes on with the next pop.  The run of that task
writes its row and ends Completed with no writer flushed; and the run `twoRowRun`, which
writes exactly its `CountNum = 2` rows, ends Completed with no writer flushed either. -/
theorem workerStep_last_row_not_flushed :
    (sampleTask 1 TaskStatusConsult).CountNum = 1 ∧
      workerStep (sampleCenter 500000) sampleEnv (sampleTask 1 TaskStatusConsult) 1
          (some testPayload) initRunState =
        ({ count := 1, rowCount := 2, errRowCount := 0, err := none,
           setRowCall := [(1, 2, ["\"get1\"", "\"get1\"", "\"get1\""])],
           setRow := [(1, 2, ["\"get1\"", "\"get1\"", "\"get1\""])], flush := [] },
          Flow.next) ∧
      oneRowRun.calls.setRow.map (fun r => (r.1, r.2.1)) = [(1, 2)] ∧
      oneRowRun.count = 1 ∧ oneRowRun.calls.flush = [] ∧
      oneRowRun.tasks.map (fun t => (t.CountNum, t.Status, t.WriteNum)) =
        [(1, TaskStatusCompleted, 1)] ∧
      twoRowRun.calls.setRow.map (fun r => (r.1, r.2.1)) = [(1, 2), (1, 3)] ∧
      twoRowRun.count = 2 ∧ twoRowRun.calls.flush = [] ∧
      twoRowRun.tasks.map (fun t => (t.CountNum, t.Status, t.WriteNum)) =
        [(2, TaskStatusCompleted, 2)] := by
  refine ⟨rfl, by decide, by decide, by decide, by decide, by decide, by decide, by decide,
    by decide, by decide⟩

/-- C14 (code at the failing input): the run `twoShardRun` on an engine with
`sheetMaxRows = 2` and pool capacity 1, two payloads on the first shard and one on the
second.  Each sheet gets its header at row 1.  The first unit of work writes rows 2 and 3
and ends on the row maximum, which stores 0 in the row cursor; the second unit of work then
passes its data row to `SetRow` with the cell of row 1 of sheet 2 as target.  The writer,
which has the header at that row, refuses it: the row is counted as an error and lost, and
the task ends Failed with `WriteNum = 2` and `ErrNum = 1`. -/
theorem export_addresses_data_row_to_header_row :
    NewClient sampleEnv (sampleOptions 2) = .ok (sampleCenter 2) ∧
      (sampleCenter 2).poolMax = 1 ∧
      twoShardRun.calls.setHeader.map (fun r => (r.1, r.2.1)) = [(1, 1), (2, 1)] ∧
      twoShardRun.calls.setRowCall.map (fun r => (r.1, r.2.1)) = [(1, 2), (1, 3), (2, 1)] ∧
      ¬ (∀ r ∈ twoShardRun.calls.setRowCall, 2 ≤ r.2.1) ∧
      twoShardRun.calls.flush = [1] ∧
      sampleEnv.cellName 1 = .ok "A1" ∧
      sampleEnv.setRowError 2 "A1" ["\"get1\"", "\"get1\"", "\"get1\""] =
        some "row 1 has already been written" ∧
      twoShardRun.calls.setRow.map (fun r => (r.1, r.2.1)) = [(1, 2), (1, 3)] ∧
      twoShardRun.count = 2 ∧ twoShardRun.errRowCount = 1 ∧
      twoShardRun.tasks.map (fun t => (t.CountNum, t.Status, t.WriteNum, t.ErrNum)) =
        [(3, TaskStatusFail, 2, 1)] := by
  refine ⟨newClient_sampleOptions 2 (by decide), rfl, by decide, by decide, by decide,
    by decide, rfl, rfl, by decide, by decide, by decide, by decide⟩

end Exportcenter
